import Mathlib

/-!
Shallow embedding of the beacon order-book exchange engine
(`src/backend/order_book/mod.rs` and `src/backend/updates.rs`).

Modelling conventions:
* `u128` / `u64` quantities become `Nat`; the source uses checked arithmetic
  (`checked_add` / `checked_mul` panic on overflow, `checked_sub` yields an
  error), so no wrap-around behaviour has to be reproduced.
* `Principal` and `TokenId` identifiers become `Nat`.
* `BTreeMap` becomes an association list touched only through first-occurrence
  lookup / set / erase helpers; `BTreeSet<Order>` becomes a list ordered by the
  `Ord` instance of `Order`, with insert / remove / get keyed by `Order.cmp`.
* A Rust method taking `&mut self` and returning `Result<A, String>` becomes a
  function `State → ... → State × Except String A`: mutations performed before
  an early `return Err(...)` persist in the returned state, exactly as for a
  `&mut self` method.  Panics (`assert!`, `expect`, `unwrap`) are modelled as
  `Except.error` results carrying the panic message.
* The matching loop of `execute_trade` is written with an explicit fuel
  parameter to make it structurally recursive (hence computable by `decide`):
  every loop iteration removes one order from the side it consumes, or ends
  the loop, so fuel `orders.length` makes the cutoff branch unreachable and
  the function agrees with the source loop.
* Log messages: the source logs formatted strings; the model appends fixed
  strings since no property depends on the message text.
-/

namespace Beacon

/-- `PAYMENT_TOKEN_ID` constant; an arbitrary fixed principal. -/
def PAYMENT_TOKEN_ID : Nat := 0

/-- `TX_FEE` from `order_book/mod.rs`. -/
def TX_FEE : Nat := 20

/-- `MAX_ORDERS_PER_HOUR` from `order_book/mod.rs`. -/
def MAX_ORDERS_PER_HOUR : Nat := 15

/-- `MINUTE` from `lib.rs` (nanoseconds). -/
def MINUTE : Nat := 60000000000

/-- `HOUR` from `lib.rs`. -/
def HOUR : Nat := 60 * MINUTE

inductive OrderType where
  | Buy
  | Sell
deriving Repr, DecidableEq

/-- `OrderType::buy`. -/
def OrderType.buy : OrderType → Bool
  | .Buy => true
  | .Sell => false

/-- `OrderType::sell`. -/
def OrderType.sell : OrderType → Bool
  | .Buy => false
  | .Sell => true

inductive OrderExecution where
  | Filled (n : Nat)
  | FilledAndOrderCreated (n : Nat)
deriving Repr, DecidableEq

/-- The `Order` record of `order_book/mod.rs`. -/
structure Order where
  order_type : OrderType
  owner : Nat
  amount : Nat
  price : Nat
  timestamp : Nat
  executed : Nat
  decimals : Nat
  payment_token_fee : Nat
deriving Repr, DecidableEq

/-- `trading_fee` from `order_book/mod.rs`: `(volume * TX_FEE / fee).max(1)`. -/
def trading_fee (fee : Nat) (volume : Nat) : Nat :=
  max (volume * TX_FEE / fee) 1

/-- `Order::volume`: `amount * price / 10^decimals`. -/
def Order.volume (o : Order) : Nat :=
  o.amount * o.price / 10 ^ o.decimals

/-- `Order::reserved_liquidity`: buys reserve `volume + trading_fee`, sells
reserve `amount`. -/
def Order.reserved_liquidity (o : Order) : Nat :=
  if o.order_type.buy then
    o.volume + trading_fee o.payment_token_fee o.volume
  else
    o.amount

/-- The `Ord` instance of `Order`: lexicographic on
`(price, timestamp, amount, owner)`.  The source asserts equal `order_type`
and `executed` before comparing; inside one book side both are constant, so
the comparison reads only the four key fields. -/
def Order.cmp (a b : Order) : Ordering :=
  if a.price ≠ b.price then compare a.price b.price
  else if a.timestamp ≠ b.timestamp then compare a.timestamp b.timestamp
  else if a.amount ≠ b.amount then compare a.amount b.amount
  else compare a.owner b.owner

/-! ## Association lists standing for `BTreeMap` -/

/-- `BTreeMap` lookup. -/
def alookup {α : Type} : List (Nat × α) → Nat → Option α
  | [], _ => none
  | (k, v) :: r, q => if k = q then some v else alookup r q

/-- `BTreeMap` insert-or-update (used for `entry(..)` style mutation). -/
def aset {α : Type} : List (Nat × α) → Nat → α → List (Nat × α)
  | [], q, v => [(q, v)]
  | (k, w) :: r, q, v => if k = q then (k, v) :: r else (k, w) :: aset r q v

/-- `BTreeMap::remove` (first occurrence of the key). -/
def aerase {α : Type} : List (Nat × α) → Nat → List (Nat × α)
  | [], _ => []
  | (k, w) :: r, q => if k = q then r else (k, w) :: aerase r q

/-- Lookup with a default value (`unwrap_or_default` / `entry(..).or_default`
reads). -/
def agetD {α : Type} (l : List (Nat × α)) (q : Nat) (d : α) : α :=
  (alookup l q).getD d

/-- Sum of the values of a `Nat → Nat` map (`pool.values().sum()`). -/
def valsum : List (Nat × Nat) → Nat
  | [] => 0
  | e :: t => e.2 + valsum t

abbrev Pool := List (Nat × Nat)
abbrev Pools := List (Nat × Pool)

/-! ## The order book sides standing for `BTreeSet<Order>` -/

/-- `BTreeSet::insert`: walk in `cmp` order; an element comparing equal makes
the insert return `false` and leave the set unchanged. -/
def insertOrder (o : Order) : List Order → Bool × List Order
  | [] => (true, [o])
  | x :: xs =>
    match o.cmp x with
    | .lt => (true, o :: x :: xs)
    | .eq => (false, x :: xs)
    | .gt =>
      let r := insertOrder o xs
      (r.1, x :: r.2)

/-- `BTreeSet::get`: the element comparing equal to the probe, if any. -/
def getOrder (probe : Order) : List Order → Option Order
  | [] => none
  | x :: xs => if probe.cmp x = .eq then some x else getOrder probe xs

/-- `BTreeSet::remove`: delete the element comparing equal to the probe. -/
def removeOrder (probe : Order) : List Order → Bool × List Order
  | [] => (false, [])
  | x :: xs =>
    if probe.cmp x = .eq then (true, xs)
    else
      let r := removeOrder probe xs
      (r.1, x :: r.2)

/-- One side of a `Book` (`buyers` / `sellers`), kept in ascending `cmp`
order like a `BTreeSet` iterator. -/
structure Book where
  buyers : List Order
  sellers : List Order
deriving Repr, DecidableEq

/-- `Metadata` from `order_book/mod.rs`. -/
structure Metadata where
  symbol : String
  fee : Nat
  decimals : Nat
  logo : Option String
  timestamp : Nat
deriving Repr, DecidableEq

/-- The engine `State` from `order_book/mod.rs`. -/
structure State where
  orders : List (Nat × Book)
  order_archive : List (Nat × List Order)
  pools : Pools
  tokens : List (Nat × Metadata)
  revenue_account : Option Nat
  logs : List (Nat × String)
  event_id : Nat
  order_activity : List (Nat × List Nat)
deriving Repr, DecidableEq

/-- `State::log`: push the message to the front and bump `event_id`. -/
def State.log (s : State) (message : String) : State :=
  { s with logs := (s.event_id, message) :: s.logs, event_id := s.event_id + 1 }

/-- `State::add_liquidity`: `pools.entry(id).or_default()` then
`pool.entry(user).or_default() += amount`, followed by a log line. -/
def State.add_liquidity (s : State) (user : Nat) (id : Nat)
    (amount : Nat) : State :=
  let pool := agetD s.pools id []
  let pool2 := aset pool user (agetD pool user 0 + amount)
  let s2 := { s with pools := aset s.pools id pool2 }
  s2.log "added tokens to pool"

/-- `State::withdraw_liquidity`: remove the whole entry of the user. -/
def State.withdraw_liquidity (s : State) (user : Nat) (id : Nat) :
    State × Except String Nat :=
  match alookup s.pools id with
  | none => (s, .error "no token found")
  | some pool =>
    match alookup pool user with
    | none => (s, .error "nothing to withdraw")
    | some amount =>
      let s2 := { s with pools := aset s.pools id (aerase pool user) }
      (s2.log "withdrew tokens from pool", .ok amount)

/-- `State::token_pool_balance`. -/
def State.token_pool_balance (s : State) (token : Nat) (user : Nat) :
    Nat :=
  agetD (agetD s.pools token []) user 0

/-- Insertion into the `HashSet<Nat>` of `order_activity`. -/
def insertTimestamp (t : Nat) (l : List Nat) : List Nat :=
  if t ∈ l then l else t :: l

/-- `State::record_activity`.  Note the `None` arm installs an empty set and
does not record `now`; the `retain` pruning persists even when the rate limit
error is returned. -/
def State.record_activity (s : State) (token : Nat) (principal : Nat)
    (now : Nat) : State × Except String Unit :=
  match alookup s.tokens token with
  | none => (s, .error "token not listed")
  | some metadata =>
    let s1 := { s with tokens := aset s.tokens token { metadata with timestamp := now } }
    match alookup s1.order_activity principal with
    | some records =>
      let pruned := records.filter (fun t => decide (now ≤ t + HOUR))
      if MAX_ORDERS_PER_HOUR ≤ pruned.length then
        ({ s1 with order_activity := aset s1.order_activity principal pruned },
         .error "too many orders within one hour; please try again later")
      else
        let acts := aset s1.order_activity principal (insertTimestamp now pruned)
        ({ s1 with order_activity := acts }, .ok ())
    | none =>
      ({ s1 with order_activity := aset s1.order_activity principal [] }, .ok ())

/-- `State::close_order`. -/
def State.close_order (s : State) (user : Nat) (token : Nat)
    (amount : Nat) (price : Nat) (timestamp : Nat)
    (order_type : OrderType) : State × Except String Unit :=
  match alookup s.orders token with
  | none => (s, .error "no token found")
  | some book =>
    let side := if order_type.buy then book.buyers else book.sellers
    let probe : Order :=
      { order_type := order_type, owner := user, price := price, amount := amount,
        timestamp := timestamp, decimals := 0, payment_token_fee := 0, executed := 0 }
    match getOrder probe side with
    | none => (s, .error "no order found")
    | some order =>
      let reserved := order.reserved_liquidity
      let rem := removeOrder order side
      if !rem.1 then (s, .error "order not found")
      else
        let book2 := if order_type.buy then { book with buyers := rem.2 }
                     else { book with sellers := rem.2 }
        let s2 := { s with orders := aset s.orders token book2 }
        (s2.add_liquidity user (if order_type.buy then PAYMENT_TOKEN_ID else token)
           reserved, .ok ())

/-- `State::create_order`.  Mutations performed before an error return
(activity recording, the `orders.entry(token).or_default()` insertion)
persist in the returned state, as with the `&mut self` original. -/
def State.create_order (s : State) (user : Nat) (token : Nat)
    (amount : Nat) (price : Nat) (timestamp : Nat)
    (order_type : OrderType) : State × Except String Unit :=
  if price = 0 then (s, .error "limit price is 0")
  else
    match s.record_activity token user timestamp with
    | (s1, .error e) => (s1, .error e)
    | (s1, .ok _) =>
      if token = PAYMENT_TOKEN_ID then
        (s1, .error "no orders for payment tokens are possible")
      else
        match alookup s1.tokens token with
        | none => (s1, .error "token not listed")
        | some metadata =>
          match alookup s1.tokens PAYMENT_TOKEN_ID with
          | none => (s1, .error "payment token not listed")
          | some payMeta =>
            let order : Order :=
              { order_type := order_type, owner := user, amount := amount,
                price := price, decimals := metadata.decimals,
                payment_token_fee := payMeta.fee, timestamp := timestamp,
                executed := 0 }
            let book := agetD s1.orders token ⟨[], []⟩
            let s2 := { s1 with orders := aset s1.orders token book }
            let reserving := if order_type.buy then PAYMENT_TOKEN_ID else token
            match alookup s2.pools reserving with
            | none => (s2, .error "no token found")
            | some pool =>
              match alookup pool user with
              | none => (s2, .error "no funds available")
              | some token_balance =>
                let required := order.reserved_liquidity
                if token_balance < required then
                  (s2, .error "not enough funds available for this order size")
                else
                  let volume := order.volume
                  let fee := trading_fee order.payment_token_fee volume
                  if volume < fee * 10 then
                    (s2, .error "the order is too small")
                  else
                    let side := if order_type.buy then book.buyers else book.sellers
                    let ins := insertOrder order side
                    let book2 := if order_type.buy then { book with buyers := ins.2 }
                                 else { book with sellers := ins.2 }
                    let s3 := { s2 with orders := aset s2.orders token book2 }
                    if !ins.1 then (s3, .error "order exists already")
                    else
                      let pool2 := aset pool user (token_balance - required)
                      let s4 := { s3 with pools := aset s3.pools reserving pool2 }
                      (s4.log "created order", .ok ())

/-- The `adjust_pools` function of `order_book/mod.rs`.  Pure on the pools
map; all checked subtractions and the opening assertion surface as errors. -/
def adjust_pools (pools : Pools) (trader : Nat) (token : Nat)
    (order : Order) (revenue_account : Nat) (trade_type : OrderType) :
    Except String Pools :=
  if order.order_type = trade_type then
    .error "order type equals trade type"
  else
    let pr := if trade_type.buy then order.owner else trader
    let tr := if trade_type.buy then trader else order.owner
    match alookup pools token with
    | none => .error "no token pool found"
    | some token_pool =>
      -- trade_type.sell(): sellers tokens are live, checked_sub on or_insert(0)
      let sellStep : Except String Pool :=
        if trade_type.sell then
          let bal := agetD token_pool pr 0
          if bal < order.amount then .error "not enough tokens"
          else .ok (aset token_pool pr (bal - order.amount))
        else .ok token_pool
      match sellStep with
      | .error e => .error e
      | .ok tp1 =>
        let tp2 := aset tp1 tr (agetD tp1 tr 0 + order.amount)
        let pools1 := aset pools token tp2
        match alookup pools1 PAYMENT_TOKEN_ID with
        | none => .error "no payment pool found"
        | some payment_pool =>
          let volume := order.volume
          let fee := trading_fee order.payment_token_fee volume
          -- trade_type.buy(): buyers payment is live, get_mut then checked_sub
          let buyStep : Except String Pool :=
            if trade_type.buy then
              match alookup payment_pool tr with
              | none => .error "no payment tokens"
              | some bal =>
                if bal < volume + fee then .error "not enough payment tokens"
                else .ok (aset payment_pool tr (bal - (volume + fee)))
            else .ok payment_pool
          match buyStep with
          | .error e => .error e
          | .ok pp1 =>
            if volume < fee then .error "amount smaller than fee"
            else
              let pp2 := aset pp1 pr (agetD pp1 pr 0 + (volume - fee))
              let pp3 := aset pp2 revenue_account
                (agetD pp2 revenue_account 0 + 2 * fee)
              .ok (aset pools1 PAYMENT_TOKEN_ID pp3)

/-- Result of the matching loop of `execute_trade`: the filled total, the
surviving counter side, the pools, the orders archived by this call in
consumption order, and the error of the iteration that aborted the loop, if
any (mutations of the earlier iterations persist, as with `?` in the
source). -/
structure MatchRes where
  filled : Nat
  side : List Order
  pools : Pools
  consumed : List Order
  err : Option String
deriving Repr, DecidableEq

/-- `pop_first` for a trader buy (the counter side holds sells, best price is
the minimum) and `pop_last` for a trader sell (the counter side holds buys,
best price is the maximum). -/
def popSide (trade_type : OrderType) (l : List Order) :
    Option (Order × List Order) :=
  if trade_type.buy then
    match l with
    | [] => none
    | x :: xs => some (x, xs)
  else
    match l.getLast? with
    | none => none
    | some x => some (x, l.dropLast)

/-- The limit gate of `execute_trade`: stop when the best counter order is
outside the limit. -/
def limitHit (trade_type : OrderType) (limit : Option Nat)
    (order : Order) : Bool :=
  match limit with
  | none => false
  | some p =>
    (trade_type.buy && decide (p < order.price)) ||
    (trade_type.sell && decide (order.price < p))

/-- Credit used for freed liquidity on an order split: the source only
credits through `pools.get_mut(&PAYMENT_TOKEN_ID).and_then(get_mut(owner))`,
so a missing pool or missing owner entry silently drops the amount. -/
def creditExisting (pools : Pools) (token : Nat) (user : Nat)
    (amount : Nat) : Pools :=
  match alookup pools token with
  | none => pools
  | some pool =>
    match alookup pool user with
    | none => pools
    | some bal => aset pools token (aset pool user (bal + amount))

/-- The `while let Some(order) = pop ...` loop of `execute_trade`.  The fuel
argument only makes the recursion structural: every iteration that continues
the loop pops one order and inserts none back, so `orders.length` fuel is
never exhausted before the loop ends by itself. -/
def matchLoop (trade_type : OrderType) (trader : Nat) (token : Nat)
    (revenue : Option Nat) (limit : Option Nat)
    (time : Nat) :
    Nat → Nat → List Order → Pools → MatchRes
  | 0, _, orders, pools => ⟨0, orders, pools, [], none⟩
  | fuel + 1, amount, orders, pools =>
    match popSide trade_type orders with
    | none => ⟨0, orders, pools, [], none⟩
    | some (order, rest) =>
      if limitHit trade_type limit order then
        ⟨0, (insertOrder order rest).2, pools, [], none⟩
      else if amount < order.amount then
        -- partial order fill: create a new order for the leftovers
        let prev_rl := order.reserved_liquidity
        let remaining : Order := { order with amount := order.amount - amount }
        let vol := remaining.volume
        let fee := trading_fee remaining.payment_token_fee vol
        if vol ≤ fee then
          ⟨0, rest, pools, [], some "dust orders are not supported"⟩
        else
          let ins := insertOrder remaining rest
          if !ins.1 then ⟨0, ins.2, pools, [], some "order overwritten"⟩
          else
            let filledOrder : Order := { order with amount := amount }
            let rl2 := remaining.reserved_liquidity + filledOrder.reserved_liquidity
            if prev_rl < rl2 then ⟨0, ins.2, pools, [], some "underflow"⟩
            else
              let freed := prev_rl - rl2
              if 0 < freed ∧ ¬(trade_type.sell ∧ order.order_type.buy) then
                ⟨0, ins.2, pools, [], some "assertion failed"⟩
              else
                let pools1 :=
                  if 0 < freed then
                    creditExisting pools PAYMENT_TOKEN_ID order.owner freed
                  else pools
                match revenue with
                | none => ⟨0, ins.2, pools1, [], some "no revenue account"⟩
                | some rev =>
                  match adjust_pools pools1 trader token filledOrder rev trade_type with
                  | .error e => ⟨0, ins.2, pools1, [], some e⟩
                  | .ok pools2 =>
                    ⟨filledOrder.amount, ins.2, pools2,
                      [{ filledOrder with executed := time }], none⟩
      else
        let amount2 := amount - order.amount
        match revenue with
        | none => ⟨0, rest, pools, [], some "no revenue account"⟩
        | some rev =>
          match adjust_pools pools trader token order rev trade_type with
          | .error e => ⟨0, rest, pools, [], some e⟩
          | .ok pools1 =>
            let archived : Order := { order with executed := time }
            if amount2 = 0 then ⟨order.amount, rest, pools1, [archived], none⟩
            else
              let r := matchLoop trade_type trader token revenue limit time
                fuel amount2 rest pools1
              ⟨order.amount + r.filled, r.side, r.pools,
                archived :: r.consumed, r.err⟩

/-- `State::execute_trade`.  The early return for an unknown token happens
before the archive entry is created; afterwards the archive entry, the
surviving side, the pools and the archived orders of the loop are written
back (also when the loop aborted with an error, matching `?` on `&mut self`). -/
def State.execute_trade (s : State) (trade_type : OrderType) (trader : Nat)
    (token : Nat) (amount : Nat) (limit : Option Nat)
    (time : Nat) : State × Except String Nat :=
  match alookup s.orders token with
  | none => (s, .ok 0)
  | some book =>
    let sideOrders := if trade_type.buy then book.sellers else book.buyers
    let archive := agetD s.order_archive token []
    let s1 := { s with order_archive := aset s.order_archive token archive }
    let r := matchLoop trade_type trader token s1.revenue_account limit time
      sideOrders.length amount sideOrders s1.pools
    let book2 := if trade_type.buy then { book with sellers := r.side }
                 else { book with buyers := r.side }
    let newOrders := aset s1.orders token book2
    let newArchive := aset s1.order_archive token (r.consumed.reverse ++ archive)
    let s2 := { s1 with orders := newOrders, order_archive := newArchive, pools := r.pools }
    match r.err with
    | some e => (s2, .error e)
    | none =>
      if 0 < r.filled then (s2.log "trade executed", .ok r.filled)
      else (s2, .ok r.filled)

/-- `State::trade`: match existing orders, then create a rest order when the
request was a limit order and was not fully filled. -/
def State.trade (s : State) (trade_type : OrderType) (user : Nat)
    (token : Nat) (amount : Nat) (price : Nat)
    (now : Nat) : State × Except String OrderExecution :=
  match s.execute_trade trade_type user token amount
      (if 0 < price then some price else none) now with
  | (s1, .error e) => (s1, .error e)
  | (s1, .ok filled) =>
    if filled < amount ∧ 0 < price then
      match s1.create_order user token (amount - filled) price now trade_type with
      | (s2, .error e) => (s2, .error e)
      | (s2, .ok _) => (s2, .ok (.FilledAndOrderCreated filled))
    else (s1, .ok (.Filled filled))

/-- The reserved part of `State::funds_under_management` for one token: all
open buys across every book reserve payment particles, the open sells of a
token book reserve that token. -/
def reservedIn (s : State) (t : Nat) : Nat :=
  if t = PAYMENT_TOKEN_ID then
    (s.orders.map (fun e => ((e.2.buyers.map Order.reserved_liquidity).sum))).sum
  else
    match alookup s.orders t with
    | none => 0
    | some book => (book.sellers.map Order.reserved_liquidity).sum

/-- `State::funds_under_management`, read at a single token: the pool balance
sum plus the liquidity reserved inside open orders. -/
def funds_under_management (s : State) (t : Nat) : Nat :=
  valsum (agetD s.pools t []) + reservedIn s t

/-- Whether a state transition respects a declared
`funds_under_management` delta. -/
def checkedDelta (before after : State) (check : Option (Nat × Int)) :
    Bool :=
  match check with
  | none => true
  | some (t, d) =>
    (funds_under_management after t : Int) =
      (funds_under_management before t : Int) + d

/-- Modelled from the spec: `mutate_with_invarant_check` is invoked by
`updates.rs` but its definition is not among the source files.  Spec section 5
describes it as reading `funds_under_management` before and after the wrapped
mutation and comparing the difference with the declared delta, any mismatch
being fatal. -/
def mutate_with_invarant_check {α : Type} (s : State)
    (f : State → State × Except String α) (check : Option (Nat × Int)) :
    State × Except String α :=
  let r := f s
  if checkedDelta s r.1 check then r else (r.1, .error "invariant violated")

/-- The `withdraw` update call of `updates.rs`.  The external ledger transfer
is abstracted by the `transferOk` argument; on a failed transfer the pool
entry is restored and the error surfaces. -/
def withdraw (s : State) (user : Nat) (token : Nat)
    (transferOk : Bool) : State × Except String Nat :=
  match alookup s.tokens token with
  | none => (s, .error "no token listed")
  | some md =>
    let fee := md.fee
    let existing := s.token_pool_balance token user
    if 2 ^ 127 ≤ existing then (s, .error "overflow")
    else if existing ≤ fee then (s, .error "amount smaller than the fee")
    else
      match mutate_with_invarant_check s
          (fun st => st.withdraw_liquidity user token)
          (some (token, -(existing : Int))) with
      | (s1, .error e) => (s1, .error e)
      | (s1, .ok balance) =>
        if balance < fee then (s1, .error "underflow")
        else
          let amount := balance - fee
          if transferOk then (s1, .ok amount)
          else
            let s2 := s1.log "withdraw transfer failed"
            let r := mutate_with_invarant_check s2
              (fun st => (st.add_liquidity user token balance, Except.ok ()))
              (some (token, (balance : Int)))
            (r.1, .error "withdraw transfer failed")

deriving instance DecidableEq for Except

/-! ## Concrete scenarios used by the claim theorems -/

/-- Payment token metadata used by the concrete scenarios (fee 10000,
8 decimals, matching the test fixtures of the source). -/
def mdPay : Metadata := ⟨"USD", 10000, 8, none, 0⟩

/-- Listed token metadata used by the concrete scenarios (fee 25,
2 decimals, matching the test fixtures of the source). -/
def mdTok : Metadata := ⟨"TAGGR", 25, 2, none, 0⟩

/-- Open buy order of user 1: 1487 token particles at price 101, so
`volume = 1501` and `reserved_liquidity = 1504`. -/
def bugOrder : Order := ⟨.Buy, 1, 1487, 101, 0, 0, 2, 10000⟩

/-- The remainder the split of `bugOrder` re-inserts when 744 particles are
sold into it. -/
def bugRemaining : Order := { bugOrder with amount := 743 }

/-- The filled part of the split of `bugOrder`. -/
def bugFilled : Order := { bugOrder with amount := 744 }

/-- State holding `bugOrder` whose owner (user 1) has no payment-pool entry;
user 2 owns 1000 token particles.  Reachable: user 1 creates the order and
then withdraws the whole remaining payment balance, which removes the pool
entry. -/
def bugState : State :=
  { orders := [(100, ⟨[bugOrder], []⟩)], order_archive := [],
    pools := [(PAYMENT_TOKEN_ID, []), (100, [(2, 1000)])],
    tokens := [(PAYMENT_TOKEN_ID, mdPay), (100, mdTok)], revenue_account := some 255,
    logs := [], event_id := 0, order_activity := [] }

/-- `bugState` after user 2 sells 744 token particles into the book. -/
def bugAfter : State := (bugState.execute_trade .Sell 2 100 744 none 99).1

/-- Sell order of user 1: 1000 token particles at price 100, so
`volume = 1000`, `trading_fee = 2` and the creation rule
`trading_fee * 10 ≤ volume` holds. -/
def dustSell : Order := ⟨.Sell, 1, 1000, 100, 0, 0, 2, 10000⟩

/-- State holding `dustSell` and a buyer (user 2) with 2000 payment
particles. -/
def dustState : State :=
  { orders := [(100, ⟨[], [dustSell]⟩)], order_archive := [],
    pools := [(PAYMENT_TOKEN_ID, [(2, 2000)]), (100, [])],
    tokens := [(PAYMENT_TOKEN_ID, mdPay), (100, mdTok)], revenue_account := some 255,
    logs := [], event_id := 0, order_activity := [] }

/-- `dustState` after user 2 buys 995 of the 1000 resting particles. -/
def dustAfter : State := (dustState.execute_trade .Buy 2 100 995 none 99).1

/-- Buy order with the earlier creation timestamp (user 1, timestamp 10). -/
def buyEarly : Order := ⟨.Buy, 1, 10, 5000, 10, 0, 2, 10000⟩

/-- Buy order with the later creation timestamp (user 2, timestamp 20), same
price as `buyEarly`. -/
def buyLate : Order := ⟨.Buy, 2, 10, 5000, 20, 0, 2, 10000⟩

/-- State with the two equal-price buy orders and a seller (user 3) holding
100 token particles. -/
def tieState : State :=
  { orders := [(100, ⟨[buyEarly, buyLate], []⟩)], order_archive := [],
    pools := [(PAYMENT_TOKEN_ID, []), (100, [(3, 100)])],
    tokens := [(PAYMENT_TOKEN_ID, mdPay), (100, mdTok)], revenue_account := some 255,
    logs := [], event_id := 0, order_activity := [] }

/-- The matching loop run of a sale of 20 particles into `tieState`. -/
def tieRun : MatchRes :=
  matchLoop .Sell 3 100 (some 255) none 99 2 20 [buyEarly, buyLate] tieState.pools

/-- Base state for the rate-limit scenario: user 7 owns 1000000 payment
particles and no activity is recorded yet. -/
def rateBase : State :=
  { orders := [], order_archive := [],
    pools := [(PAYMENT_TOKEN_ID, [(7, 1000000)]), (100, [])],
    tokens := [(PAYMENT_TOKEN_ID, mdPay), (100, mdTok)], revenue_account := some 255,
    logs := [], event_id := 0, order_activity := [] }

/-- `rateBase` after `n` order creations by user 7 at timestamps `1, ..., n`
(all inside one hour, pairwise distinct). -/
def rateRun : Nat → State
  | 0 => rateBase
  | n + 1 => ((rateRun n).create_order 7 100 1 20000 (n + 1) .Buy).1

/-- Result of the `(n + 1)`-th order creation of the rate-limit scenario. -/
def rateRes (n : Nat) : Except String Unit :=
  ((rateRun n).create_order 7 100 1 20000 (n + 1) .Buy).2

/-- State with a listed token whose book is present but empty, used by the
C8 witness. -/
def c8State : State :=
  { orders := [(100, ⟨[], []⟩)], order_archive := [],
    pools := [(PAYMENT_TOKEN_ID, [(1, 5)]), (100, [])],
    tokens := [(PAYMENT_TOKEN_ID, mdPay), (100, mdTok)], revenue_account := some 255,
    logs := [], event_id := 0, order_activity := [] }

/-- State for the C10 witness: one resting sell of 1000 particles, buyer 5
holding 2000 payment particles and already 15 recorded order timestamps
inside the last hour. -/
def atomState : State :=
  { orders := [(100, ⟨[], [⟨.Sell, 1, 1000, 100, 0, 0, 2, 10000⟩]⟩)], order_archive := [],
    pools := [(PAYMENT_TOKEN_ID, [(5, 2000)]), (100, [])],
    tokens := [(PAYMENT_TOKEN_ID, mdPay), (100, mdTok)], revenue_account := some 255,
    logs := [], event_id := 0,
    order_activity := [(5, [1, 2, 3, 4, 5, 6, 7, 8, 9, 10, 11, 12, 13, 14, 15])] }

/-- `atomState` after the matching part of the C10 trade. -/
def atomMid : State := (atomState.execute_trade .Buy 5 100 1500 (some 100) 20).1

/-- State returned by the failing C10 trade call. -/
def atomEnd : State := (atomMid.create_order 5 100 500 100 20 .Buy).1

/-- Withdraw scenario state for C9: the payment token is listed with fee
10000; user 7 holds 25000 pool particles, user 8 only 500. -/
def c9State : State :=
  { orders := [], order_archive := [], pools := [(0, [(7, 25000), (8, 500)])],
    tokens := [(0, mdPay)], revenue_account := none, logs := [], event_id := 0,
    order_activity := [] }

/-- The state shape produced by `record_activity`: metadata timestamp bumped
and the activity set of the user replaced. -/
def activityUpdated (s : State) (tk : Nat) (md : Metadata) (now u : Nat)
    (l : List Nat) : State :=
  let s1 := { s with tokens := aset s.tokens tk { md with timestamp := now } }
  { s1 with order_activity := aset s1.order_activity u l }

/-- Concrete pools map used by the C6 witness. -/
def c6pools : Pools := [(0, [(2, 2000)]), (100, [(1, 50)])]

/-- Concrete resting sell order used by the C6 witness. -/
def c6order : Order := ⟨.Sell, 1, 10, 100, 0, 0, 2, 10000⟩

/-- Concrete result of `adjust_pools` on `c6pools` for the C6 witness. -/
def c6after : Pools := [(0, [(2, 1989), (1, 9), (255, 2)]), (100, [(1, 50), (2, 10)])]

/-! ## Helper predicates -/

/-- Strict ascending adjacency in the `Order` comparison order (the
iteration order of a `BTreeSet<Order>`). -/
def cmpLtB (a b : Order) : Bool := decide (a.cmp b = Ordering.lt)

/-- Weak ordering on `(price, timestamp)` only. -/
def ptLeB (a b : Order) : Bool :=
  decide (a.price < b.price) ||
    (decide (a.price = b.price) && decide (a.timestamp ≤ b.timestamp))

/-- Reversed `ptLeB`. -/
def ptGeB (a b : Order) : Bool := ptLeB b a

/-- Adjacent-pairs chain of a boolean relation. -/
def chainB (rel : Order → Order → Bool) : List Order → Bool
  | [] => true
  | [_] => true
  | a :: b :: r => rel a b && chainB rel (b :: r)

/-- An order clears its own trading fee strictly (`volume > trading_fee`). -/
def weakDustB (o : Order) : Bool :=
  decide (trading_fee o.payment_token_fee o.volume < o.volume)

/-- Every open order of the state clears its own trading fee strictly. -/
def stateDustFreeB (s : State) : Bool :=
  s.orders.all (fun e => e.2.buyers.all weakDustB && e.2.sellers.all weakDustB)

/-- An order satisfies the tenfold creation rule of `create_order`. -/
def strongDustB (o : Order) : Bool :=
  decide (trading_fee o.payment_token_fee o.volume * 10 ≤ o.volume)


/-- The state produced by a successful `create_order` run: `s1` is the state
after `record_activity`, `pool` the reserving pool and `tb` the balance of
the user in it. -/
def createdState (s1 : State) (u tk : Nat) (order : Order) (pool : Pool)
    (tb : Nat) : State :=
  let book := agetD s1.orders tk ⟨[], []⟩
  let side := if order.order_type.buy then book.buyers else book.sellers
  let ins := insertOrder order side
  let book2 := if order.order_type.buy then { book with buyers := ins.2 }
               else { book with sellers := ins.2 }
  let reserving := if order.order_type.buy then PAYMENT_TOKEN_ID else tk
  let pools2 := aset s1.pools reserving (aset pool u (tb - order.reserved_liquidity))
  State.log { s1 with orders := aset s1.orders tk book2, pools := pools2 }
    "created order"

/-- Balance of a user in the pool of a token inside a raw pools map. -/
def poolBal (ps : Pools) (t u : Nat) : Nat := agetD (agetD ps t []) u 0

/-! ## Association list lemmas -/

theorem alookup_aset_self {α : Type} (l : List (Nat × α)) (k : Nat) (v : α) :
    alookup (aset l k v) k = some v := by
  induction l with
  | nil => simp [aset, alookup]
  | cons e t ih =>
    obtain ⟨a, b⟩ := e
    by_cases hk : a = k <;> simp [aset, alookup, hk, ih]

theorem alookup_aset_ne {α : Type} (l : List (Nat × α)) (k q : Nat) (v : α)
    (h : k ≠ q) : alookup (aset l k v) q = alookup l q := by
  induction l with
  | nil => simp [aset, alookup, h]
  | cons e t ih =>
    obtain ⟨a, b⟩ := e
    by_cases hk : a = k
    · simp [aset, alookup, hk, h]
    · by_cases hq : a = q <;> simp [aset, alookup, hk, hq, Ne.symm h, ih]

theorem aset_self_of_lookup {α : Type} {l : List (Nat × α)} {k : Nat} {v : α}
    (h : alookup l k = some v) : aset l k v = l := by
  induction l with
  | nil => simp [alookup] at h
  | cons e t ih =>
    obtain ⟨a, b⟩ := e
    by_cases hk : a = k
    · simp [alookup, hk] at h
      simp [aset, hk, h]
    · simp [alookup, hk] at h
      simp [aset, hk, ih h]

theorem aset_aset {α : Type} (l : List (Nat × α)) (k : Nat) (v w : α) :
    aset (aset l k v) k w = aset l k w := by
  induction l with
  | nil => simp [aset]
  | cons e t ih =>
    obtain ⟨a, b⟩ := e
    by_cases hk : a = k <;> simp [aset, hk, ih]

theorem alookup_mem {α : Type} {l : List (Nat × α)} {k : Nat} {v : α}
    (h : alookup l k = some v) : (k, v) ∈ l := by
  induction l with
  | nil => simp [alookup] at h
  | cons e t ih =>
    obtain ⟨a, b⟩ := e
    by_cases hk : a = k
    · simp [alookup, hk] at h
      subst hk h
      exact List.mem_cons_self _ _
    · simp [alookup, hk] at h
      exact List.mem_cons_of_mem _ (ih h)

theorem mem_aset {α : Type} {l : List (Nat × α)} {k : Nat} {v : α}
    {e : Nat × α} (h : e ∈ aset l k v) : e ∈ l ∨ e = (k, v) := by
  induction l with
  | nil => simp [aset] at h; simp [h]
  | cons x t ih =>
    obtain ⟨a, b⟩ := x
    by_cases hk : a = k
    · simp [aset, hk] at h
      rcases h with h | h
      · right; simp [h]
      · left; exact List.mem_cons_of_mem _ h
    · simp [aset, hk] at h
      rcases h with h | h
      · left; simp [h]
      · rcases ih h with h2 | h2
        · left; exact List.mem_cons_of_mem _ h2
        · right; exact h2

theorem agetD_aset_self (l : Pool) (k : Nat) (v : Nat) :
    agetD (aset l k v) k 0 = v := by
  simp [agetD, alookup_aset_self]

theorem agetD_aset_ne (l : Pool) (k q : Nat) (v : Nat) (h : k ≠ q) :
    agetD (aset l k v) q 0 = agetD l q 0 := by
  simp [agetD, alookup_aset_ne _ _ _ _ h]

theorem valsum_aset (l : Pool) (k : Nat) (v : Nat) :
    valsum (aset l k v) + agetD l k 0 = valsum l + v := by
  induction l with
  | nil => simp [aset, valsum, agetD, alookup]
  | cons e t ih =>
    obtain ⟨a, b⟩ := e
    by_cases hk : a = k
    · simp [aset, valsum, agetD, alookup, hk]
      omega
    · simp [aset, valsum, agetD, alookup, hk] at ih ⊢
      omega

theorem valsum_aerase {l : Pool} {k : Nat} {v : Nat}
    (h : alookup l k = some v) : valsum (aerase l k) + v = valsum l := by
  induction l with
  | nil => simp [alookup] at h
  | cons e t ih =>
    obtain ⟨a, b⟩ := e
    by_cases hk : a = k
    · simp [alookup, hk] at h
      simp [aerase, valsum, hk, h]
      omega
    · simp [alookup, hk] at h
      simp [aerase, valsum, hk]
      have := ih h
      omega

theorem alookup_aerase_ne {α : Type} (l : List (Nat × α)) (k q : Nat)
    (h : k ≠ q) : alookup (aerase l k) q = alookup l q := by
  induction l with
  | nil => simp [aerase]
  | cons e t ih =>
    obtain ⟨a, b⟩ := e
    by_cases hk : a = k
    · simp [aerase, alookup, hk, h]
    · simp [aerase, alookup, hk, ih]

theorem alookup_eq_none_of_not_mem {α : Type} {l : List (Nat × α)} {k : Nat}
    (h : k ∉ l.map Prod.fst) : alookup l k = none := by
  induction l with
  | nil => rfl
  | cons e t ih =>
    obtain ⟨a, b⟩ := e
    have h1 : ¬a = k := fun hc => h (by simp [hc])
    have h2 : k ∉ t.map Prod.fst := fun hc => h (by simp [hc])
    simp [alookup, h1, ih h2]

theorem alookup_aerase_self {α : Type} {l : List (Nat × α)} {k : Nat}
    (h : (l.map Prod.fst).Nodup) : alookup (aerase l k) k = none := by
  induction l with
  | nil => simp [aerase, alookup]
  | cons e t ih =>
    obtain ⟨a, b⟩ := e
    simp only [List.map_cons, List.nodup_cons] at h
    by_cases hk : a = k
    · subst hk
      simp only [aerase, if_pos rfl]
      exact alookup_eq_none_of_not_mem h.1
    · simp [aerase, alookup, hk]
      exact ih h.2

/-! ## Order comparison and book lemmas -/

theorem cmp_self_eq (o : Order) : o.cmp o = .eq := by
  simp [Order.cmp, Nat.compare_eq_eq]

theorem cmp_congr {probe o : Order} (hp : probe.price = o.price)
    (ht : probe.timestamp = o.timestamp) (ha : probe.amount = o.amount)
    (ho : probe.owner = o.owner) (x : Order) : probe.cmp x = o.cmp x := by
  simp [Order.cmp, hp, ht, ha, ho]

theorem getOrder_insertOrder {o probe : Order} {l : List Order}
    (hc : ∀ x, probe.cmp x = o.cmp x)
    (h : (insertOrder o l).1 = true) :
    getOrder probe (insertOrder o l).2 = some o := by
  induction l with
  | nil => simp [insertOrder, getOrder, hc, cmp_self_eq]
  | cons x xs ih =>
    rcases hcmp : o.cmp x with _ | _ | _
    · simp [insertOrder, hcmp, getOrder, hc, cmp_self_eq]
    · simp [insertOrder, hcmp] at h
    · simp [insertOrder, hcmp] at h ⊢
      simp [getOrder, hc, hcmp]
      exact ih h

theorem removeOrder_insertOrder {o : Order} {l : List Order}
    (h : (insertOrder o l).1 = true) :
    removeOrder o (insertOrder o l).2 = (true, l) := by
  induction l with
  | nil => simp [insertOrder, removeOrder, cmp_self_eq]
  | cons x xs ih =>
    rcases hcmp : o.cmp x with _ | _ | _
    · simp [insertOrder, hcmp, removeOrder, cmp_self_eq]
    · simp [insertOrder, hcmp] at h
    · simp [insertOrder, hcmp] at h ⊢
      simp [removeOrder, hcmp, ih h]

theorem insertOrder_mem {o x : Order} {l : List Order}
    (h : x ∈ (insertOrder o l).2) : x = o ∨ x ∈ l := by
  induction l with
  | nil => simp [insertOrder] at h; simp [h]
  | cons y ys ih =>
    rcases hcmp : o.cmp y with _ | _ | _
    · simp only [insertOrder, hcmp, List.mem_cons] at h
      rcases h with h | h | h
      · exact Or.inl h
      · exact Or.inr (by simp [h])
      · exact Or.inr (List.mem_cons_of_mem _ h)
    · simp only [insertOrder, hcmp] at h
      exact Or.inr h
    · simp only [insertOrder, hcmp, List.mem_cons] at h
      rcases h with h | h
      · exact Or.inr (by simp [h])
      · rcases ih h with h2 | h2
        · exact Or.inl h2
        · exact Or.inr (List.mem_cons_of_mem _ h2)

theorem popSide_mem {tt : OrderType} {l rest : List Order} {o : Order}
    (h : popSide tt l = some (o, rest)) :
    o ∈ l ∧ ∀ x ∈ rest, x ∈ l := by
  rcases tt with _ | _
  · cases l with
    | nil => simp [popSide, OrderType.buy] at h
    | cons y ys =>
      simp [popSide, OrderType.buy] at h
      refine ⟨?_, ?_⟩
      · simp [h.1]
      · intro x hx
        rw [← h.2] at hx
        exact List.mem_cons_of_mem _ hx
  · simp [popSide, OrderType.buy] at h
    rcases hl : l.getLast? with _ | y
    · simp [hl] at h
    · simp [hl] at h
      refine ⟨?_, ?_⟩
      · rw [← h.1]
        rcases List.mem_getLast?_eq_getLast (show y ∈ l.getLast? from hl) with ⟨hne, hy⟩
        rw [hy]
        exact List.getLast_mem hne
      · intro x hx
        rw [← h.2] at hx
        exact List.dropLast_subset _ hx

/-! ## State projection lemmas -/

@[simp]
theorem log_orders (s : State) (m : String) : (State.log s m).orders = s.orders := rfl

@[simp]
theorem log_pools (s : State) (m : String) : (State.log s m).pools = s.pools := rfl

@[simp]
theorem log_tokens (s : State) (m : String) : (State.log s m).tokens = s.tokens := rfl

@[simp]
theorem log_archive (s : State) (m : String) :
    (State.log s m).order_archive = s.order_archive := rfl

@[simp]
theorem log_revenue (s : State) (m : String) :
    (State.log s m).revenue_account = s.revenue_account := rfl

theorem record_activity_pools (s : State) (tk u now : Nat) :
    (s.record_activity tk u now).1.pools = s.pools := by
  unfold State.record_activity
  dsimp only
  repeat' split
  all_goals rfl

theorem record_activity_orders (s : State) (tk u now : Nat) :
    (s.record_activity tk u now).1.orders = s.orders := by
  unfold State.record_activity
  dsimp only
  repeat' split
  all_goals rfl

theorem create_order_ok_shape {s s2 : State} {u tk a p ts : Nat} {ot : OrderType}
    (h : s.create_order u tk a p ts ot = (s2, Except.ok ())) :
    ∃ s1 md payMd pool tb,
      s.record_activity tk u ts = (s1, Except.ok ()) ∧
      tk ≠ PAYMENT_TOKEN_ID ∧
      alookup s1.tokens tk = some md ∧
      alookup s1.tokens PAYMENT_TOKEN_ID = some payMd ∧
      alookup s1.pools (if ot.buy then PAYMENT_TOKEN_ID else tk) = some pool ∧
      alookup pool u = some tb ∧
      (Order.mk ot u a p ts 0 md.decimals payMd.fee).reserved_liquidity ≤ tb ∧
      trading_fee payMd.fee (Order.mk ot u a p ts 0 md.decimals payMd.fee).volume * 10 ≤
        (Order.mk ot u a p ts 0 md.decimals payMd.fee).volume ∧
      (insertOrder (Order.mk ot u a p ts 0 md.decimals payMd.fee)
        (if ot.buy then (agetD s1.orders tk ⟨[], []⟩).buyers
         else (agetD s1.orders tk ⟨[], []⟩).sellers)).1 = true ∧
      s2 = createdState s1 u tk (Order.mk ot u a p ts 0 md.decimals payMd.fee) pool tb := by
  unfold State.create_order at h
  split at h
  · exact Except.noConfusion (congrArg Prod.snd h)
  rcases hra : s.record_activity tk u ts with ⟨s1, r1⟩
  rw [hra] at h
  rcases r1 with e | v
  · exact Except.noConfusion (congrArg Prod.snd h)
  cases v
  dsimp only at h
  split at h
  · exact Except.noConfusion (congrArg Prod.snd h)
  rcases hmd : alookup s1.tokens tk with _ | md
  · rw [hmd] at h
    exact Except.noConfusion (congrArg Prod.snd h)
  rw [hmd] at h
  rcases hpm : alookup s1.tokens PAYMENT_TOKEN_ID with _ | payMd
  · rw [hpm] at h
    exact Except.noConfusion (congrArg Prod.snd h)
  rw [hpm] at h
  dsimp only at h
  rcases hpool : alookup s1.pools (if ot.buy = true then PAYMENT_TOKEN_ID else tk) with _ | pool
  · rw [hpool] at h
    exact Except.noConfusion (congrArg Prod.snd h)
  rw [hpool] at h
  dsimp only at h
  rcases hbal : alookup pool u with _ | tb
  · rw [hbal] at h
    exact Except.noConfusion (congrArg Prod.snd h)
  rw [hbal] at h
  dsimp only at h
  repeat'
    first
    | exact Except.noConfusion (congrArg Prod.snd h)
    | split at h
  · rename_i hp2 hntk hle hfee hbuy hins
    refine ⟨s1, md, payMd, pool, tb, ?_, hntk, hmd, hpm, hpool, hbal, ?_, ?_, ?_, ?_⟩
    · rfl
    · omega
    · omega
    · simp [hbuy] at hins ⊢
      exact hins
    · have hs2 := congrArg Prod.fst h
      dsimp only at hs2
      rw [← hs2]
      simp only [createdState, hbuy, aset_aset]
      rfl
  · rename_i hp2 hntk hle hfee hbuy hins
    refine ⟨s1, md, payMd, pool, tb, ?_, hntk, hmd, hpm, hpool, hbal, ?_, ?_, ?_, ?_⟩
    · rfl
    · omega
    · omega
    · simp [hbuy] at hins ⊢
      exact hins
    · have hs2 := congrArg Prod.fst h
      dsimp only at hs2
      rw [← hs2]
      simp only [createdState, hbuy, aset_aset]
      rfl

theorem record_activity_ok_tokens {s s1 : State} {tk u now : Nat}
    (h : s.record_activity tk u now = (s1, Except.ok ())) :
    ∃ md0, alookup s.tokens tk = some md0 ∧
      s1.tokens = aset s.tokens tk { md0 with timestamp := now } := by
  unfold State.record_activity at h
  rcases hmd : alookup s.tokens tk with _ | md0
  · rw [hmd] at h
    exact Except.noConfusion (congrArg Prod.snd h)
  rw [hmd] at h
  dsimp only at h
  refine ⟨md0, rfl, ?_⟩
  repeat' split at h
  · exact Except.noConfusion (congrArg Prod.snd h)
  · have h1 := congrArg Prod.fst h
    dsimp only at h1
    rw [← h1]
  · have h1 := congrArg Prod.fst h
    dsimp only at h1
    rw [← h1]

theorem agetD_aset_nat (l : Pool) (k v u : Nat) :
    agetD (aset l k v) u 0 = if u = k then v else agetD l u 0 := by
  by_cases h : u = k
  · subst h
    rw [agetD_aset_self]
    simp
  · rw [agetD_aset_ne _ _ _ _ (fun hc => h hc.symm)]
    simp [h]

theorem agetD_aset_aset_fst {ps : Pools} {tk pay : Nat} (tp pp : Pool)
    (h : tk ≠ pay) : agetD (aset (aset ps tk tp) pay pp) tk [] = tp := by
  simp [agetD, alookup_aset_ne _ _ _ _ (Ne.symm h), alookup_aset_self]

theorem agetD_aset_aset_snd {ps : Pools} {tk pay : Nat} (tp pp : Pool) :
    agetD (aset (aset ps tk tp) pay pp) pay [] = pp := by
  simp [agetD, alookup_aset_self]

/-! ## Claim theorems -/


/-- C1, failing run: `execute_trade` succeeds (returns `Ok 744`) on
`bugState`, yet `funds_under_management` of the payment token drops from 1504
to 1503: the split frees one payment particle and the source only credits it
through `get_mut`, so an owner without a payment-pool entry loses it. -/
theorem c1_funds_lost_on_partial_fill :
    (bugState.execute_trade .Sell 2 100 744 none 99).2 = .ok 744 ∧
    funds_under_management bugState PAYMENT_TOKEN_ID = 1504 ∧
    funds_under_management bugAfter PAYMENT_TOKEN_ID = 1503 := by
  decide

/-- C2, failing run: the partial fill of `bugOrder` frees exactly one
payment particle (`freed = 1 > 0`), the call succeeds, yet the payment-pool
balance of the order owner (missing entry counting as zero) stays 0 instead
of increasing by `freed`. -/
theorem c2_freed_not_credited :
    bugOrder.reserved_liquidity -
      (bugRemaining.reserved_liquidity + bugFilled.reserved_liquidity) = 1 ∧
    (bugState.execute_trade .Sell 2 100 744 none 99).2 = .ok 744 ∧
    agetD (agetD bugState.pools PAYMENT_TOKEN_ID []) 1 0 = 0 ∧
    agetD (agetD bugAfter.pools PAYMENT_TOKEN_ID []) 1 0 = 0 := by
  decide

/-- C3, counterexample: sixteen order creations by the same user at the
pairwise distinct timestamps `1, ..., 16` — all within one hour — every one
succeed, so the `MAX_ORDERS_PER_HOUR + 1`-th (16th) creation does not fail
with the rate-limit error; moreover the first creation records no timestamp
at all (the `None` arm of `record_activity` installs an empty set). -/
theorem c3_sixteenth_create_succeeds :
    ((List.range 16).all (fun n => rateRes n = Except.ok ())) = true ∧
    rateRes 15 = Except.ok () ∧
    alookup (rateRun 1).order_activity 7 = some [] := by
  decide

/-- C4, counterexample: `dustSell` satisfies the creation rule
`trading_fee * 10 ≤ volume`; buying 995 of its 1000 particles succeeds and
re-inserts a remainder of 5 particles whose volume 5 is strictly below
`trading_fee * 10 = 10`, so an open order violating the claimed bound is
reachable — the split only asserts `volume > trading_fee`. -/
theorem c4_dust_remainder_reachable :
    trading_fee dustSell.payment_token_fee dustSell.volume * 10 ≤ dustSell.volume ∧
    (dustState.execute_trade .Buy 2 100 995 none 99).2 = .ok 995 ∧
    (alookup dustAfter.orders 100).map Book.sellers =
      some [{ dustSell with amount := 5 }] ∧
    ({ dustSell with amount := 5 } : Order).volume <
      trading_fee ({ dustSell with amount := 5 } : Order).payment_token_fee
        ({ dustSell with amount := 5 } : Order).volume * 10 := by
  decide

/-- C5, counterexample: with two open buys of equal price and creation
timestamps 10 and 20, a trader sell consumes the order created at 20 first
(`pop_last` takes the maximum of the comparison order, and at equal price the
later timestamp compares greater), so at equal price the order with the
earlier `created_at` is not consumed first. -/
theorem c5_later_timestamp_consumed_first :
    (tieState.execute_trade .Sell 3 100 20 none 99).2 = .ok 20 ∧
    tieRun.err = none ∧
    tieRun.consumed.map (fun o => (o.owner, o.timestamp, o.price)) =
      [(2, 20, 5000), (1, 10, 5000)] ∧
    alookup (tieState.execute_trade .Sell 3 100 20 none 99).1.order_archive 100 =
      some tieRun.consumed.reverse ∧
    buyEarly.price = buyLate.price ∧ buyEarly.timestamp < buyLate.timestamp := by
  decide

/-- C7: whenever `create_order` succeeds, immediately closing the order with
the same key succeeds as well, the balance of the user in the reserving pool
(payment pool for a buy, token pool for a sell) returns to exactly its value
before the create, and there is a single quantity `rl` — the reserved
liquidity of the created order, computed from the metadata snapshots — that
the create debited and the close credited back. -/
theorem c7_create_close_roundtrip :
    ∀ (s s2 : State) (u tk a p ts : Nat) (ot : OrderType),
    s.create_order u tk a p ts ot = (s2, Except.ok ()) →
    (s2.close_order u tk a p ts ot).2 = Except.ok () ∧
    State.token_pool_balance (s2.close_order u tk a p ts ot).1
        (if ot.buy then PAYMENT_TOKEN_ID else tk) u =
      State.token_pool_balance s (if ot.buy then PAYMENT_TOKEN_ID else tk) u ∧
    (∃ rl,
      State.token_pool_balance s2 (if ot.buy then PAYMENT_TOKEN_ID else tk) u + rl =
        State.token_pool_balance s (if ot.buy then PAYMENT_TOKEN_ID else tk) u ∧
      State.token_pool_balance (s2.close_order u tk a p ts ot).1
          (if ot.buy then PAYMENT_TOKEN_ID else tk) u =
        State.token_pool_balance s2 (if ot.buy then PAYMENT_TOKEN_ID else tk) u + rl ∧
      ∀ md1 payMd1, alookup s.tokens tk = some md1 →
        alookup s.tokens PAYMENT_TOKEN_ID = some payMd1 →
        rl = (Order.mk ot u a p ts 0 md1.decimals payMd1.fee).reserved_liquidity) := by
  intro s s2 u tk a p ts ot h
  obtain ⟨s1, md, payMd, pool, tb, hra, hntk, hmd, hpm, hpool, hbal, hle, hfee, hins, hs2⟩ :=
    create_order_ok_shape h
  have hpools1 : s1.pools = s.pools := by
    have := record_activity_pools s tk u ts
    rw [hra] at this
    exact this
  have hpre : State.token_pool_balance s (if ot.buy then PAYMENT_TOKEN_ID else tk) u = tb := by
    unfold State.token_pool_balance
    rw [← hpools1]
    rcases ot with _ | _ <;> simp_all [agetD]
  obtain ⟨md0, hmd0, htok⟩ := record_activity_ok_tokens hra
  have hmd_eq : md = { md0 with timestamp := ts } := by
    rw [htok, alookup_aset_self] at hmd
    injection hmd with hx
    exact hx.symm
  have hpay_s : alookup s.tokens PAYMENT_TOKEN_ID = some payMd := by
    rw [htok, alookup_aset_ne _ _ _ _ hntk] at hpm
    exact hpm
  rcases ot with _ | _
  · -- Buy
    simp only [OrderType.buy, if_pos] at hpool hins hs2 hpre ⊢
    subst hs2
    have hc : ∀ x, (Order.mk .Buy u a p ts 0 0 0).cmp x =
        (Order.mk .Buy u a p ts 0 md.decimals payMd.fee).cmp x :=
      cmp_congr rfl rfl rfl rfl
    have hget := getOrder_insertOrder hc hins
    have hrem := removeOrder_insertOrder hins
    unfold State.close_order createdState
    simp only [OrderType.buy, if_pos, log_orders, log_pools]
    rw [alookup_aset_self]
    dsimp only
    rw [hget]
    dsimp only
    rw [hrem]
    simp only [Bool.not_true, Bool.false_eq_true, if_false]
    rw [hpre]
    refine ⟨trivial, ?_,
      ⟨(Order.mk .Buy u a p ts 0 md.decimals payMd.fee).reserved_liquidity, ?_, ?_, ?_⟩⟩
    · unfold State.add_liquidity State.token_pool_balance
      simp only [log_pools, agetD, alookup_aset_self, Option.getD_some]
      omega
    · unfold State.token_pool_balance
      simp only [log_pools, agetD, alookup_aset_self, Option.getD_some]
      omega
    · unfold State.add_liquidity State.token_pool_balance
      simp only [log_pools, agetD, alookup_aset_self, Option.getD_some]
    · intro md1 payMd1 h1 h2
      rw [hmd0] at h1
      rw [hpay_s] at h2
      have e1 : md1 = md0 := by injection h1 with hx; exact hx.symm
      have e2 : payMd1 = payMd := by injection h2 with hx; exact hx.symm
      subst e1 e2
      rw [hmd_eq]
  · -- Sell
    simp only [OrderType.buy, Bool.false_eq_true, if_false] at hpool hins hs2 hpre ⊢
    subst hs2
    have hc : ∀ x, (Order.mk .Sell u a p ts 0 0 0).cmp x =
        (Order.mk .Sell u a p ts 0 md.decimals payMd.fee).cmp x :=
      cmp_congr rfl rfl rfl rfl
    have hget := getOrder_insertOrder hc hins
    have hrem := removeOrder_insertOrder hins
    unfold State.close_order createdState
    simp only [OrderType.buy, Bool.false_eq_true, if_false, log_orders, log_pools]
    rw [alookup_aset_self]
    dsimp only
    rw [hget]
    dsimp only
    rw [hrem]
    simp only [Bool.not_true, Bool.false_eq_true, if_false]
    rw [hpre]
    refine ⟨trivial, ?_,
      ⟨(Order.mk .Sell u a p ts 0 md.decimals payMd.fee).reserved_liquidity, ?_, ?_, ?_⟩⟩
    · unfold State.add_liquidity State.token_pool_balance
      simp only [log_pools, agetD, alookup_aset_self, Option.getD_some]
      omega
    · unfold State.token_pool_balance
      simp only [log_pools, agetD, alookup_aset_self, Option.getD_some]
      omega
    · unfold State.add_liquidity State.token_pool_balance
      simp only [log_pools, agetD, alookup_aset_self, Option.getD_some]
    · intro md1 payMd1 h1 h2
      rw [hmd0] at h1
      rw [hpay_s] at h2
      have e1 : md1 = md0 := by injection h1 with hx; exact hx.symm
      have e2 : payMd1 = payMd := by injection h2 with hx; exact hx.symm
      subst e1 e2
      rw [hmd_eq]

/-- C7 witness: a concrete buy order on `rateBase` is created and closed, and
the payment-pool balance of user 7 is restored. -/
theorem c7_roundtrip_witness :
    ((rateBase.create_order 7 100 1 20000 5 .Buy).1.close_order 7 100 1 20000 5 .Buy).2 =
      Except.ok () ∧
    State.token_pool_balance
        ((rateBase.create_order 7 100 1 20000 5 .Buy).1.close_order 7 100 1 20000 5 .Buy).1
        PAYMENT_TOKEN_ID 7 =
      State.token_pool_balance rateBase PAYMENT_TOKEN_ID 7 := by
  have h : rateBase.create_order 7 100 1 20000 5 .Buy =
      ((rateBase.create_order 7 100 1 20000 5 .Buy).1, Except.ok ()) := by decide
  have hr := c7_create_close_roundtrip rateBase
    (rateBase.create_order 7 100 1 20000 5 .Buy).1 7 100 1 20000 5 .Buy h
  exact ⟨hr.1, hr.2.1⟩


/-- C6: a successful `adjust_pools` call on a non-payment token changes the
balances exactly as the claim itemises, read as signed per-entry deltas (so
coinciding receivers compose): in the pool of the traded token the token
receiver gains `O.amount` and, for a sell trade, the trader loses `O.amount`;
in the payment pool the payment receiver gains `volume - fee`, the revenue
account gains `2 * fee` and, for a buy trade, the trader loses
`volume + fee`; every other token pool is untouched, and success implies
`fee ≤ volume`. -/
theorem c6_adjust_pools_deltas :
    ∀ (pools pools2 : Pools) (trader tk rev : Nat) (order : Order) (tt : OrderType),
    tk ≠ PAYMENT_TOKEN_ID →
    adjust_pools pools trader tk order rev tt = Except.ok pools2 →
    trading_fee order.payment_token_fee order.volume ≤ order.volume ∧
    (∀ u : Nat,
      (poolBal pools2 tk u : Int) =
        (poolBal pools tk u : Int)
          + (if u = (if tt.buy then trader else order.owner) then (order.amount : Int) else 0)
          - (if tt = .Sell ∧ u = trader then (order.amount : Int) else 0) ∧
      (poolBal pools2 PAYMENT_TOKEN_ID u : Int) =
        (poolBal pools PAYMENT_TOKEN_ID u : Int)
          + (if u = (if tt.buy then order.owner else trader) then
               (order.volume : Int) - trading_fee order.payment_token_fee order.volume else 0)
          + (if u = rev then 2 * (trading_fee order.payment_token_fee order.volume : Int) else 0)
          - (if tt = .Buy ∧ u = trader then
               (order.volume : Int) + trading_fee order.payment_token_fee order.volume else 0)) ∧
    (∀ t, t ≠ tk → t ≠ PAYMENT_TOKEN_ID → alookup pools2 t = alookup pools t) := by
  intro pools pools2 trader tk rev order tt hne h
  rcases tt with _ | _
  · -- trade Buy
    unfold adjust_pools at h
    split at h
    · exact Except.noConfusion h
    simp only [OrderType.buy, OrderType.sell, eq_self_iff_true, if_true, Bool.false_eq_true,
      if_false] at h
    rcases htp : alookup pools tk with _ | token_pool
    · rw [htp] at h
      exact Except.noConfusion h
    rw [htp] at h
    dsimp only at h
    rw [alookup_aset_ne _ _ _ _ hne] at h
    rcases hpp : alookup pools PAYMENT_TOKEN_ID with _ | payment_pool
    · rw [hpp] at h
      exact Except.noConfusion h
    rw [hpp] at h
    dsimp only at h
    rcases hb : alookup payment_pool trader with _ | bal
    · rw [hb] at h
      exact Except.noConfusion h
    rw [hb] at h
    dsimp only at h
    by_cases hblt : bal < order.volume + trading_fee order.payment_token_fee order.volume
    · rw [if_pos hblt] at h
      dsimp only at h
      exact Except.noConfusion h
    rw [if_neg hblt] at h
    dsimp only at h
    by_cases hvf : order.volume < trading_fee order.payment_token_fee order.volume
    · rw [if_pos hvf] at h
      exact Except.noConfusion h
    rw [if_neg hvf] at h
    injection h with h2
    subst h2
    have htbal : agetD payment_pool trader 0 = bal := by simp [agetD, hb]
    have htkbase : agetD pools tk [] = token_pool := by simp [agetD, htp]
    have hpaybase : agetD pools PAYMENT_TOKEN_ID [] = payment_pool := by simp [agetD, hpp]
    refine ⟨by omega, fun u => ⟨?_, ?_⟩, fun t h1 h2 => ?_⟩
    · unfold poolBal
      rw [agetD_aset_aset_fst _ _ hne, htkbase]
      simp only [agetD_aset_nat, OrderType.buy, eq_self_iff_true, if_true, reduceCtorEq,
        false_and, true_and, if_false]
      split_ifs <;> (try subst_vars) <;> omega
    · unfold poolBal
      rw [agetD_aset_aset_snd, hpaybase]
      simp only [agetD_aset_nat, OrderType.buy, eq_self_iff_true, if_true, reduceCtorEq,
        false_and, true_and, if_false, and_true]
      split_ifs <;> (try subst_vars) <;> omega
    · rw [alookup_aset_ne _ _ _ _ (Ne.symm h2), alookup_aset_ne _ _ _ _ (Ne.symm h1)]
  · -- trade Sell
    unfold adjust_pools at h
    split at h
    · exact Except.noConfusion h
    simp only [OrderType.buy, OrderType.sell, eq_self_iff_true, if_true, Bool.false_eq_true,
      if_false] at h
    rcases htp : alookup pools tk with _ | token_pool
    · rw [htp] at h
      exact Except.noConfusion h
    rw [htp] at h
    dsimp only at h
    by_cases hsl : agetD token_pool trader 0 < order.amount
    · rw [if_pos hsl] at h
      dsimp only at h
      exact Except.noConfusion h
    rw [if_neg hsl] at h
    dsimp only at h
    rw [alookup_aset_ne _ _ _ _ hne] at h
    rcases hpp : alookup pools PAYMENT_TOKEN_ID with _ | payment_pool
    · rw [hpp] at h
      exact Except.noConfusion h
    rw [hpp] at h
    dsimp only at h
    by_cases hvf : order.volume < trading_fee order.payment_token_fee order.volume
    · rw [if_pos hvf] at h
      exact Except.noConfusion h
    rw [if_neg hvf] at h
    injection h with h2
    subst h2
    have htkbase : agetD pools tk [] = token_pool := by simp [agetD, htp]
    have hpaybase : agetD pools PAYMENT_TOKEN_ID [] = payment_pool := by simp [agetD, hpp]
    refine ⟨by omega, fun u => ⟨?_, ?_⟩, fun t h1 h2 => ?_⟩
    · unfold poolBal
      rw [agetD_aset_aset_fst _ _ hne, htkbase]
      simp only [agetD_aset_nat, OrderType.buy, Bool.false_eq_true, eq_self_iff_true, if_true,
        reduceCtorEq, false_and, true_and, if_false, and_true]
      split_ifs <;> (try subst_vars) <;> omega
    · unfold poolBal
      rw [agetD_aset_aset_snd, hpaybase]
      simp only [agetD_aset_nat, OrderType.buy, Bool.false_eq_true, eq_self_iff_true, if_true,
        reduceCtorEq, false_and, true_and, if_false, and_true]
      split_ifs <;> (try subst_vars) <;> omega
    · rw [alookup_aset_ne _ _ _ _ (Ne.symm h2), alookup_aset_ne _ _ _ _ (Ne.symm h1)]

/-- C6 witness: the delta theorem applied to a concrete buy trade against
`c6order`. -/
theorem c6_adjust_pools_witness :
    trading_fee c6order.payment_token_fee c6order.volume ≤ c6order.volume ∧
    alookup c6after 7 = alookup c6pools 7 := by
  have h := c6_adjust_pools_deltas c6pools c6after 2 100 255 c6order OrderType.Buy
    (by decide) (by decide)
  exact ⟨h.1, h.2.2 7 (by decide) (by decide)⟩


/-- C8: with `price = 0` the `trade` entry point is a market order — a
successful call always returns the `Filled` variant, never
`FilledAndOrderCreated` — and when the token has no book or an empty book the
call returns `Filled 0` and leaves every book and every pool unchanged. -/
theorem c8_market_order_no_rest :
    (∀ (s : State) (tt : OrderType) (u tk am now : Nat) (ex : OrderExecution),
      (s.trade tt u tk am 0 now).2 = Except.ok ex → ∃ n, ex = OrderExecution.Filled n) ∧
    (∀ (s : State) (tt : OrderType) (u tk am now : Nat),
      (alookup s.orders tk = none ∨
        ∃ b, alookup s.orders tk = some b ∧ b.buyers = [] ∧ b.sellers = []) →
      (s.trade tt u tk am 0 now).2 = Except.ok (OrderExecution.Filled 0) ∧
      (s.trade tt u tk am 0 now).1.orders = s.orders ∧
      (s.trade tt u tk am 0 now).1.pools = s.pools) := by
  constructor
  · intro s tt u tk am now ex h
    unfold State.trade at h
    simp only [Nat.lt_irrefl, if_false, and_false] at h
    rcases he : s.execute_trade tt u tk am none now with ⟨s1, r⟩
    rw [he] at h
    rcases r with e | filled
    · simp at h
    · dsimp only at h
      injection h with h2
      exact ⟨filled, h2.symm⟩
  · intro s tt u tk am now hbook
    rcases hbook with hnone | ⟨b, hb, hb1, hb2⟩
    · have hex : s.execute_trade tt u tk am none now = (s, Except.ok 0) := by
        unfold State.execute_trade
        rw [hnone]
      unfold State.trade
      simp only [Nat.lt_irrefl, if_false, and_false]
      rw [hex]
      exact ⟨rfl, rfl, rfl⟩
    · obtain ⟨bb, bs⟩ := b
      dsimp only at hb1 hb2
      subst hb1 hb2
      have hex : s.execute_trade tt u tk am none now =
          ({ s with order_archive := aset s.order_archive tk (agetD s.order_archive tk []), orders := aset s.orders tk ⟨[], []⟩ }, Except.ok 0) := by
        unfold State.execute_trade
        rw [hb]
        dsimp only
        rcases tt with _ | _
        · simp only [OrderType.buy, eq_self_iff_true, if_true, List.length_nil, matchLoop]
          rw [if_neg (by simp)]
          simp only [List.reverse_nil, List.nil_append, aset_aset]
        · simp only [OrderType.buy, Bool.false_eq_true, if_false, List.length_nil, matchLoop]
          rw [if_neg (by simp)]
          simp only [List.reverse_nil, List.nil_append, aset_aset]
      unfold State.trade
      simp only [Nat.lt_irrefl, if_false, and_false]
      rw [hex]
      refine ⟨rfl, ?_, rfl⟩
      dsimp only
      exact aset_self_of_lookup hb

/-- C8 witness: a market buy against the empty book of `c8State` fills
nothing and changes no book and no pool. -/
theorem c8_market_order_witness :
    (c8State.trade .Buy 1 100 7 0 99).2 = Except.ok (OrderExecution.Filled 0) ∧
    (c8State.trade .Buy 1 100 7 0 99).1.orders = c8State.orders ∧
    (c8State.trade .Buy 1 100 7 0 99).1.pools = c8State.pools :=
  c8_market_order_no_rest.2 c8State .Buy 1 100 7 99
    (Or.inr ⟨⟨[], []⟩, by decide, rfl, rfl⟩)


/-- C10: `State::trade` is not atomic on error — when the matching loop has
already filled and settled orders and the subsequent rest-order creation
fails, `trade` returns that error together with the state in which the fills,
settlements and archive entries persist (no rollback happens at this layer). -/
theorem c10_trade_not_atomic :
    ∀ (s s1 s2 : State) (tt : OrderType) (u tk am p now filled : Nat) (e : String),
    0 < p →
    s.execute_trade tt u tk am (some p) now = (s1, Except.ok filled) →
    filled < am →
    s1.create_order u tk (am - filled) p now tt = (s2, Except.error e) →
    s.trade tt u tk am p now = (s2, Except.error e) := by
  intro s s1 s2 tt u tk am p now filled e hp hex hlt hcr
  unfold State.trade
  rw [if_pos hp, hex]
  dsimp only
  rw [if_pos ⟨hlt, hp⟩, hcr]

/-- C10 witness: a rate-limited buyer fills a resting sell for 1000
particles; the rest-order creation then fails, `trade` surfaces the error,
and the settled pools (buyer paid 1002, received 1000 tokens; seller credited
998) and the archived fill remain in the returned state. -/
theorem c10_trade_not_atomic_witness :
    atomState.trade .Buy 5 100 1500 100 20 =
      (atomEnd, Except.error "too many orders within one hour; please try again later") ∧
    agetD (agetD atomEnd.pools PAYMENT_TOKEN_ID []) 5 0 = 998 ∧
    agetD (agetD atomEnd.pools PAYMENT_TOKEN_ID []) 1 0 = 998 ∧
    agetD (agetD atomEnd.pools 100 []) 5 0 = 1000 ∧
    (alookup atomEnd.order_archive 100).map List.length = some 1 := by
  have h1 : atomState.execute_trade .Buy 5 100 1500 (some 100) 20 =
      (atomMid, Except.ok 1000) := by decide
  have h2 : atomMid.create_order 5 100 (1500 - 1000) 100 20 .Buy =
      (atomEnd, Except.error "too many orders within one hour; please try again later") := by
    decide
  exact ⟨c10_trade_not_atomic atomState atomMid atomEnd .Buy 5 100 1500 100 20 1000 _
      (by decide) h1 (by decide) h2, by decide, by decide, by decide, by decide⟩

/-- C9: the `withdraw` update call never leaves a half-completed withdrawal
behind: a balance not exceeding the token fee is rejected with the state
untouched, a successful withdrawal removes the user entry from the pool and
pays out balance minus fee, and a failed ledger transfer re-credits the full
balance so that the user balance and `funds_under_management` are exactly what
they were before the call. -/
theorem c9_withdraw_rollback :
    ∀ (s : State) (u tk : Nat) (md : Metadata) (transferOk : Bool),
    alookup s.tokens tk = some md →
    s.token_pool_balance tk u < 2 ^ 127 →
    ((agetD s.pools tk []).map Prod.fst).Nodup →
    (s.token_pool_balance tk u ≤ md.fee →
      withdraw s u tk transferOk = (s, Except.error "amount smaller than the fee")) ∧
    (md.fee < s.token_pool_balance tk u →
      (withdraw s u tk true).2 = Except.ok (s.token_pool_balance tk u - md.fee) ∧
      alookup (agetD (withdraw s u tk true).1.pools tk []) u = none ∧
      (withdraw s u tk false).2 = Except.error "withdraw transfer failed" ∧
      State.token_pool_balance (withdraw s u tk false).1 tk u =
        s.token_pool_balance tk u ∧
      funds_under_management (withdraw s u tk false).1 tk =
        funds_under_management s tk) := by
  intro s u tk md transferOk hmd hlt hnodup
  constructor
  · intro hle
    unfold withdraw
    rw [hmd]
    dsimp only
    rw [if_neg (by omega), if_pos hle]
  · intro hgt
    -- the pool and the entry exist because the balance is positive
    rcases hpool : alookup s.pools tk with _ | pool
    · exfalso
      unfold State.token_pool_balance agetD at hgt
      rw [hpool] at hgt
      simp [alookup] at hgt
    have hpoolD : agetD s.pools tk [] = pool := by
      unfold agetD
      rw [hpool]
      rfl
    have hbalv : s.token_pool_balance tk u = agetD pool u 0 := by
      unfold State.token_pool_balance
      rw [hpoolD]
    rcases hbal : alookup pool u with _ | bal
    · exfalso
      rw [hbalv] at hgt
      unfold agetD at hgt
      rw [hbal] at hgt
      simp at hgt
    have hbal2 : s.token_pool_balance tk u = bal := by
      rw [hbalv]
      unfold agetD
      rw [hbal]
      rfl
    have hnodup2 : (pool.map Prod.fst).Nodup := hpoolD ▸ hnodup
    have hwl : State.withdraw_liquidity s u tk =
        (State.log { s with pools := aset s.pools tk (aerase pool u) }
          "withdrew tokens from pool", Except.ok bal) := by
      unfold State.withdraw_liquidity
      rw [hpool]
      dsimp only
      rw [hbal]
    have hres : reservedIn (State.log { s with pools := aset s.pools tk (aerase pool u) }
        "withdrew tokens from pool") tk = reservedIn s tk := rfl
    have hdelta : checkedDelta s
        (State.log { s with pools := aset s.pools tk (aerase pool u) }
          "withdrew tokens from pool") (some (tk, -((s.token_pool_balance tk u : Nat) : Int))) =
        true := by
      have hv := valsum_aerase hbal
      simp only [checkedDelta, funds_under_management, decide_eq_true_eq, log_pools, hres]
      rw [show agetD (aset s.pools tk (aerase pool u)) tk [] = aerase pool u from by
        simp [agetD, alookup_aset_self]]
      rw [hpoolD, hbal2]
      push_cast
      omega
    have hmut : mutate_with_invarant_check s
        (fun st => st.withdraw_liquidity u tk)
        (some (tk, -((s.token_pool_balance tk u : Nat) : Int))) =
        (State.log { s with pools := aset s.pools tk (aerase pool u) }
          "withdrew tokens from pool", Except.ok bal) := by
      unfold mutate_with_invarant_check
      dsimp only
      rw [hwl, if_pos hdelta]
    have htrue : withdraw s u tk true =
        (State.log { s with pools := aset s.pools tk (aerase pool u) }
          "withdrew tokens from pool", Except.ok (bal - md.fee)) := by
      unfold withdraw
      rw [hmd]
      dsimp only
      rw [if_neg (by omega), if_neg (by omega), hmut]
      dsimp only
      rw [if_neg (by omega)]
      rw [if_pos rfl]
    have hfalse : withdraw s u tk false =
        ((State.log (State.log { s with pools := aset s.pools tk (aerase pool u) }
            "withdrew tokens from pool") "withdraw transfer failed").add_liquidity u tk bal,
         Except.error "withdraw transfer failed") := by
      unfold withdraw
      rw [hmd]
      dsimp only
      rw [if_neg (by omega), if_neg (by omega), hmut]
      dsimp only
      rw [if_neg (by omega)]
      rw [if_neg (by simp)]
      unfold mutate_with_invarant_check
      dsimp only
      split
      · rfl
      · rfl
    refine ⟨?_, ?_, ?_, ?_, ?_⟩
    · rw [htrue, hbal2]
    · rw [htrue]
      dsimp only
      simp only [log_pools]
      rw [show agetD (aset s.pools tk (aerase pool u)) tk [] = aerase pool u from by
        simp [agetD, alookup_aset_self]]
      exact alookup_aerase_self hnodup2
    · rw [hfalse]
    · rw [hbal2, hfalse]
      unfold State.add_liquidity State.token_pool_balance
      dsimp only
      simp only [log_pools]
      rw [show agetD (aset s.pools tk (aerase pool u)) tk [] = aerase pool u from by
        simp [agetD, alookup_aset_self]]
      rw [show agetD (aerase pool u) u 0 = 0 from by
        simp [agetD, alookup_aerase_self hnodup2]]
      rw [show agetD (aset (aset s.pools tk (aerase pool u)) tk
            (aset (aerase pool u) u (0 + bal))) tk [] = aset (aerase pool u) u (0 + bal) from by
        simp [agetD, alookup_aset_self]]
      rw [agetD_aset_self]
      omega
    · rw [hfalse]
      unfold funds_under_management
      have hresF : reservedIn ((State.log (State.log
          { s with pools := aset s.pools tk (aerase pool u) }
          "withdrew tokens from pool") "withdraw transfer failed").add_liquidity u tk bal) tk =
          reservedIn s tk := rfl
      rw [hresF]
      unfold State.add_liquidity
      dsimp only
      simp only [log_pools]
      rw [show agetD (aset s.pools tk (aerase pool u)) tk [] = aerase pool u from by
        simp [agetD, alookup_aset_self]]
      rw [show agetD (aerase pool u) u 0 = 0 from by
        simp [agetD, alookup_aerase_self hnodup2]]
      rw [show agetD (aset (aset s.pools tk (aerase pool u)) tk
            (aset (aerase pool u) u (0 + bal))) tk [] = aset (aerase pool u) u (0 + bal) from by
        simp [agetD, alookup_aset_self]]
      rw [hpoolD]
      have h1 := valsum_aset (aerase pool u) u (0 + bal)
      have h2 := valsum_aerase hbal
      have h3 : agetD (aerase pool u) u 0 = 0 := by
        simp [agetD, alookup_aerase_self hnodup2]
      omega

/-- Witness for C9 at a concrete state: user 7 holds 25000 particles of the
payment token (fee 10000), user 8 holds only 500. -/
theorem c9_withdraw_witness :
    withdraw c9State 8 0 true = (c9State, Except.error "amount smaller than the fee") ∧
    (withdraw c9State 7 0 true).2 = Except.ok 15000 ∧
    alookup (agetD (withdraw c9State 7 0 true).1.pools 0 []) 7 = none ∧
    (withdraw c9State 7 0 false).2 = Except.error "withdraw transfer failed" ∧
    State.token_pool_balance (withdraw c9State 7 0 false).1 0 7 = 25000 ∧
    funds_under_management (withdraw c9State 7 0 false).1 0 =
      funds_under_management c9State 0 := by
  have h8 := (c9_withdraw_rollback c9State 8 0 mdPay true (by decide) (by decide)
      (by decide)).1 (by decide)
  have h7 := (c9_withdraw_rollback c9State 7 0 mdPay true (by decide) (by decide)
      (by decide)).2 (by decide)
  exact ⟨h8, h7.1.trans (by decide), h7.2.1, h7.2.2.1,
    h7.2.2.2.1.trans (by decide), h7.2.2.2.2⟩

/-- C3 (amended): per-user activity is a pruned sliding-hour timestamp set;
the first creation only installs an empty set without recording its own
timestamp, a later attempt fails iff 15 or more in-window timestamps remain
after pruning and otherwise inserts its timestamp; `create_order` with a
nonzero price propagates the rate-limit error together with the mutated
state. -/
theorem c3_rate_limit_amended :
    ∀ (s : State) (tk u now : Nat) (md : Metadata),
    alookup s.tokens tk = some md →
    (alookup s.order_activity u = none →
      s.record_activity tk u now =
        (activityUpdated s tk md now u [], Except.ok ())) ∧
    (∀ records, alookup s.order_activity u = some records →
      (MAX_ORDERS_PER_HOUR ≤
          (records.filter (fun t => decide (now ≤ t + HOUR))).length →
        s.record_activity tk u now =
          (activityUpdated s tk md now u
            (records.filter (fun t => decide (now ≤ t + HOUR))),
           Except.error "too many orders within one hour; please try again later")) ∧
      ((records.filter (fun t => decide (now ≤ t + HOUR))).length <
          MAX_ORDERS_PER_HOUR →
        s.record_activity tk u now =
          (activityUpdated s tk md now u
            (insertTimestamp now (records.filter (fun t => decide (now ≤ t + HOUR)))),
           Except.ok ()))) ∧
    (∀ (s1 : State) (e : String) (a p : Nat) (ot : OrderType), p ≠ 0 →
      s.record_activity tk u now = (s1, Except.error e) →
      s.create_order u tk a p now ot = (s1, Except.error e)) := by
  intro s tk u now md hmd
  refine ⟨?_, ?_, ?_⟩
  · intro hact
    unfold State.record_activity activityUpdated
    rw [hmd]
    dsimp only
    rw [hact]
  · intro records hact
    constructor
    · intro hlen
      unfold State.record_activity activityUpdated
      rw [hmd]
      dsimp only
      rw [hact]
      dsimp only
      rw [if_pos hlen]
    · intro hlen
      unfold State.record_activity activityUpdated
      rw [hmd]
      dsimp only
      rw [hact]
      dsimp only
      rw [if_neg (by omega)]
  · intro s1 e a p ot hp hrec
    unfold State.create_order
    rw [if_neg hp, hrec]

/-- Witness for C3 at concrete states: a user with no prior activity gets an
empty set installed; a user with 15 in-window timestamps is refused, and
`create_order` surfaces that refusal unchanged. -/
theorem c3_rate_limit_witness :
    rateBase.record_activity 100 7 5 =
      (activityUpdated rateBase 100 mdTok 5 7 [], Except.ok ()) ∧
    atomState.record_activity 100 5 20 =
      (activityUpdated atomState 100 mdTok 20 5
        [1, 2, 3, 4, 5, 6, 7, 8, 9, 10, 11, 12, 13, 14, 15],
       Except.error "too many orders within one hour; please try again later") ∧
    atomState.create_order 5 100 700 100 20 .Buy =
      (activityUpdated atomState 100 mdTok 20 5
        [1, 2, 3, 4, 5, 6, 7, 8, 9, 10, 11, 12, 13, 14, 15],
       Except.error "too many orders within one hour; please try again later") := by
  have h0 := (c3_rate_limit_amended rateBase 100 7 5 mdTok (by decide)).1 (by decide)
  have h := c3_rate_limit_amended atomState 100 5 20 mdTok (by decide)
  have h1 := (h.2.1 [1, 2, 3, 4, 5, 6, 7, 8, 9, 10, 11, 12, 13, 14, 15]
      (by decide)).1 (by decide)
  have h1e : atomState.record_activity 100 5 20 =
      (activityUpdated atomState 100 mdTok 20 5
        [1, 2, 3, 4, 5, 6, 7, 8, 9, 10, 11, 12, 13, 14, 15],
       Except.error "too many orders within one hour; please try again later") :=
    h1.trans (by decide)
  have h2 := h.2.2
    (activityUpdated atomState 100 mdTok 20 5
      [1, 2, 3, 4, 5, 6, 7, 8, 9, 10, 11, 12, 13, 14, 15])
    "too many orders within one hour; please try again later" 700 100 .Buy
    (by decide) h1e
  exact ⟨h0, h1e, h2⟩

theorem trading_fee_pos (fee volume : Nat) : 1 ≤ trading_fee fee volume := by
  unfold trading_fee
  exact Nat.le_max_right _ 1

theorem matchLoop_side_mem {tt : OrderType} {trader token : Nat}
    {revenue : Option Nat} {limit : Option Nat} {time : Nat} :
    ∀ (fuel amount : Nat) (orders : List Order) (pools : Pools) (o : Order),
    o ∈ (matchLoop tt trader token revenue limit time fuel amount orders pools).side →
    o ∈ orders ∨ weakDustB o = true := by
  intro fuel
  induction fuel with
  | zero =>
    intro amount orders pools o h
    exact Or.inl (by simpa [matchLoop] using h)
  | succ n ih =>
    intro amount orders pools o h
    unfold matchLoop at h
    rcases hpop : popSide tt orders with _ | op
    · rw [hpop] at h
      dsimp only at h
      exact Or.inl h
    · rcases op with ⟨order, rest⟩
      rw [hpop] at h
      dsimp only at h
      have hm := popSide_mem hpop
      repeat' split at h
      all_goals try dsimp only at h
      all_goals
        first
        | exact Or.inl h
        | exact Or.inl (hm.2 _ h)
        | (rcases insertOrder_mem h with rfl | hr
           · first
             | exact Or.inl hm.1
             | (refine Or.inr ?_
                simp only [weakDustB, decide_eq_true_eq]
                omega)
           · exact Or.inl (hm.2 _ hr))
        | (rcases ih _ _ _ _ h with hr | hw
           · exact Or.inl (hm.2 _ hr)
           · exact Or.inr hw)

theorem execute_trade_orders {s s2 : State} {tt : OrderType}
    {trader token amount time : Nat} {limit : Option Nat}
    {r : Except String Nat}
    (h : s.execute_trade tt trader token amount limit time = (s2, r)) :
    s2.orders = s.orders ∨
    ∃ book, alookup s.orders token = some book ∧
      s2.orders = aset s.orders token
        (if tt.buy then
          { book with sellers :=
            (matchLoop tt trader token s.revenue_account limit time
              (if tt.buy then book.sellers else book.buyers).length amount
              (if tt.buy then book.sellers else book.buyers) s.pools).side }
         else
          { book with buyers :=
            (matchLoop tt trader token s.revenue_account limit time
              (if tt.buy then book.sellers else book.buyers).length amount
              (if tt.buy then book.sellers else book.buyers) s.pools).side }) := by
  rcases tt with _ | _
  all_goals (
    unfold State.execute_trade at h
    simp only [OrderType.buy, eq_self_iff_true, if_true, Bool.false_eq_true,
      if_false] at h ⊢
    rcases hbk : alookup s.orders token with _ | book
    · rw [hbk] at h
      dsimp only at h
      injection h with h1 h2
      exact Or.inl (by rw [← h1])
    · rw [hbk] at h
      dsimp only at h
      right
      refine ⟨book, rfl, ?_⟩
      repeat' split at h
      all_goals injection h with h1 h2
      all_goals rw [← h1]
      all_goals rfl)

theorem strongDust_weak {o : Order} (h : strongDustB o = true) :
    weakDustB o = true := by
  simp only [strongDustB, weakDustB, decide_eq_true_eq] at h ⊢
  have h1 := trading_fee_pos o.payment_token_fee o.volume
  omega

theorem stateDustFree_lookup {s : State} (hs : stateDustFreeB s = true)
    {tk : Nat} {bk : Book} {o : Order} (hbk : alookup s.orders tk = some bk)
    (hm : o ∈ bk.buyers ∨ o ∈ bk.sellers) : weakDustB o = true := by
  have hmem := alookup_mem hbk
  unfold stateDustFreeB at hs
  rw [List.all_eq_true] at hs
  have h2 := hs _ hmem
  simp only [Bool.and_eq_true, List.all_eq_true] at h2
  rcases hm with hm | hm
  · exact h2.1 _ hm
  · exact h2.2 _ hm

/-- C4 (amended): an order accepted by `create_order` satisfies the tenfold
creation rule `trading_fee * 10 <= volume`, so every order a creation adds to
the books is either pre-existing or satisfies that bound; the matching
engine's partial-fill remainder is only guaranteed the strict bound
`trading_fee < volume`, and that weaker bound is the invariant preserved by
both order creation and trade execution. -/
theorem c4_dust_amended :
    ∀ (s sc t st : State) (u tk a p ts : Nat) (ot : OrderType)
      (u2 tk2 a2 ts2 : Nat) (ot2 : OrderType) (lim : Option Nat)
      (r : Except String Nat),
    (s.create_order u tk a p ts ot = (sc, Except.ok ()) →
      (∀ tkq bk o, alookup sc.orders tkq = some bk →
          (o ∈ bk.buyers ∨ o ∈ bk.sellers) →
          (∃ bk0, alookup s.orders tkq = some bk0 ∧
            (o ∈ bk0.buyers ∨ o ∈ bk0.sellers)) ∨ strongDustB o = true) ∧
      (stateDustFreeB s = true → stateDustFreeB sc = true)) ∧
    (t.execute_trade ot2 u2 tk2 a2 lim ts2 = (st, r) →
      (∀ tkq bk o, alookup st.orders tkq = some bk →
          (o ∈ bk.buyers ∨ o ∈ bk.sellers) →
          (∃ bk0, alookup t.orders tkq = some bk0 ∧
            (o ∈ bk0.buyers ∨ o ∈ bk0.sellers)) ∨ weakDustB o = true) ∧
      (stateDustFreeB t = true → stateDustFreeB st = true)) := by
  intro s sc t st u tk a p ts ot u2 tk2 a2 ts2 ot2 lim r
  constructor
  · intro h
    rcases create_order_ok_shape h with
      ⟨s1, md, payMd, pool, tb, hra, hntk, hmd, hpm, hpool, hbal, hres, hfee, hins, hs2⟩
    have hord : s1.orders = s.orders := by
      have h0 := record_activity_orders s tk u ts
      rw [hra] at h0
      exact h0
    have hstrong : strongDustB (Order.mk ot u a p ts 0 md.decimals payMd.fee) = true := by
      simp only [strongDustB, decide_eq_true_eq]
      exact hfee
    -- the orders map of the created state
    have hordsc : sc.orders = aset s.orders tk
        (if ot.buy then
          { agetD s1.orders tk ⟨[], []⟩ with buyers :=
            (insertOrder (Order.mk ot u a p ts 0 md.decimals payMd.fee)
              (agetD s1.orders tk ⟨[], []⟩).buyers).2 }
         else
          { agetD s1.orders tk ⟨[], []⟩ with sellers :=
            (insertOrder (Order.mk ot u a p ts 0 md.decimals payMd.fee)
              (agetD s1.orders tk ⟨[], []⟩).sellers).2 }) := by
      rw [hs2]
      unfold createdState
      dsimp only
      rw [← hord]
      rcases ot with _ | _ <;>
        simp only [OrderType.buy, eq_self_iff_true, if_true, Bool.false_eq_true,
          if_false] <;> rfl
    have h1a : ∀ tkq bk o, alookup sc.orders tkq = some bk →
        (o ∈ bk.buyers ∨ o ∈ bk.sellers) →
        (∃ bk0, alookup s.orders tkq = some bk0 ∧
          (o ∈ bk0.buyers ∨ o ∈ bk0.sellers)) ∨ strongDustB o = true := by
      intro tkq bk o hbk hm
      rw [hordsc] at hbk
      by_cases htk : tk = tkq
      · subst htk
        rw [alookup_aset_self] at hbk
        injection hbk with hbk
        subst hbk
        have hbook : ∀ x, (x ∈ (agetD s1.orders tk ⟨[], []⟩).buyers ∨
            x ∈ (agetD s1.orders tk ⟨[], []⟩).sellers) →
            ∃ bk0, alookup s.orders tk = some bk0 ∧
              (x ∈ bk0.buyers ∨ x ∈ bk0.sellers) := by
          intro x hx
          rcases hset : alookup s1.orders tk with _ | b
          · unfold agetD at hx
            rw [hset] at hx
            simp at hx
          · unfold agetD at hx
            rw [hset] at hx
            rw [hord] at hset
            exact ⟨b, hset, hx⟩
        rcases ot with _ | _
        · simp only [OrderType.buy, eq_self_iff_true, if_true] at hm
          rcases hm with hm | hm
          · rcases insertOrder_mem hm with rfl | hr
            · exact Or.inr hstrong
            · exact Or.inl (hbook _ (Or.inl hr))
          · exact Or.inl (hbook _ (Or.inr hm))
        · simp only [OrderType.buy, Bool.false_eq_true, if_false] at hm
          rcases hm with hm | hm
          · exact Or.inl (hbook _ (Or.inl hm))
          · rcases insertOrder_mem hm with rfl | hr
            · exact Or.inr hstrong
            · exact Or.inl (hbook _ (Or.inr hr))
      · rw [alookup_aset_ne _ _ _ _ htk] at hbk
        exact Or.inl ⟨bk, hbk, hm⟩
    refine ⟨h1a, ?_⟩
    intro hs
    unfold stateDustFreeB
    rw [List.all_eq_true]
    intro e he
    rw [hordsc] at he
    simp only [Bool.and_eq_true, List.all_eq_true]
    rcases mem_aset he with hold | hnew
    · have h0 := (List.all_eq_true.mp hs) _ hold
      simp only [Bool.and_eq_true, List.all_eq_true] at h0
      exact h0
    · have hlook : alookup sc.orders tk = some e.2 := by
        rw [hordsc, hnew, alookup_aset_self]
      constructor
      · intro o hmo
        rcases h1a tk e.2 o hlook (Or.inl hmo) with ⟨bk0, hbk0, hm0⟩ | hstr
        · exact stateDustFree_lookup hs hbk0 hm0
        · exact strongDust_weak hstr
      · intro o hmo
        rcases h1a tk e.2 o hlook (Or.inr hmo) with ⟨bk0, hbk0, hm0⟩ | hstr
        · exact stateDustFree_lookup hs hbk0 hm0
        · exact strongDust_weak hstr
  · intro h
    have h2a : ∀ tkq bk o, alookup st.orders tkq = some bk →
        (o ∈ bk.buyers ∨ o ∈ bk.sellers) →
        (∃ bk0, alookup t.orders tkq = some bk0 ∧
          (o ∈ bk0.buyers ∨ o ∈ bk0.sellers)) ∨ weakDustB o = true := by
      intro tkq bk o hbk hm
      rcases execute_trade_orders h with hsame | ⟨book, hbook, hshape⟩
      · rw [hsame] at hbk
        exact Or.inl ⟨bk, hbk, hm⟩
      · rw [hshape] at hbk
        by_cases htk : tk2 = tkq
        · subst htk
          rw [alookup_aset_self] at hbk
          injection hbk with hbk
          subst hbk
          rcases ot2 with _ | _
          · simp only [OrderType.buy, eq_self_iff_true, if_true] at hm
            rcases hm with hm | hm
            · exact Or.inl ⟨book, hbook, Or.inl hm⟩
            · rcases matchLoop_side_mem _ _ _ _ _ hm with hr | hw
              · exact Or.inl ⟨book, hbook, Or.inr hr⟩
              · exact Or.inr hw
          · simp only [OrderType.buy, Bool.false_eq_true, if_false] at hm
            rcases hm with hm | hm
            · rcases matchLoop_side_mem _ _ _ _ _ hm with hr | hw
              · exact Or.inl ⟨book, hbook, Or.inl hr⟩
              · exact Or.inr hw
            · exact Or.inl ⟨book, hbook, Or.inr hm⟩
        · rw [alookup_aset_ne _ _ _ _ htk] at hbk
          exact Or.inl ⟨bk, hbk, hm⟩
    refine ⟨h2a, ?_⟩
    intro hs
    unfold stateDustFreeB
    rw [List.all_eq_true]
    intro e he
    simp only [Bool.and_eq_true, List.all_eq_true]
    rcases execute_trade_orders h with hsame | ⟨book, hbook, hshape⟩
    · rw [hsame] at he
      have h0 := (List.all_eq_true.mp hs) _ he
      simp only [Bool.and_eq_true, List.all_eq_true] at h0
      exact h0
    · rw [hshape] at he
      rcases mem_aset he with hold | hnew
      · have h0 := (List.all_eq_true.mp hs) _ hold
        simp only [Bool.and_eq_true, List.all_eq_true] at h0
        exact h0
      · have hlook : alookup st.orders tk2 = some e.2 := by
          rw [hshape, hnew, alookup_aset_self]
        constructor
        · intro o hmo
          rcases h2a tk2 e.2 o hlook (Or.inl hmo) with ⟨bk0, hbk0, hm0⟩ | hw
          · exact stateDustFree_lookup hs hbk0 hm0
          · exact hw
        · intro o hmo
          rcases h2a tk2 e.2 o hlook (Or.inr hmo) with ⟨bk0, hbk0, hm0⟩ | hw
          · exact stateDustFree_lookup hs hbk0 hm0
          · exact hw

/-- Witness for C4: a concrete successful creation and the concrete partial
fill of the dust scenario both preserve the strict dust-freeness bound. -/
theorem c4_dust_witness :
    stateDustFreeB rateBase = true ∧ stateDustFreeB (rateRun 1) = true ∧
    stateDustFreeB dustState = true ∧ stateDustFreeB dustAfter = true := by
  have h := c4_dust_amended rateBase (rateRun 1) dustState dustAfter
    7 100 1 20000 1 .Buy 2 100 995 99 .Buy none
    (dustState.execute_trade .Buy 2 100 995 none 99).2
  exact ⟨by decide, (h.1 (by decide)).2 (by decide), by decide,
    (h.2 (by decide)).2 (by decide)⟩

theorem cmpLt_ptLe {a b : Order} (h : cmpLtB a b = true) : ptLeB a b = true := by
  simp only [cmpLtB, decide_eq_true_eq] at h
  unfold Order.cmp at h
  simp only [ptLeB, Bool.or_eq_true, Bool.and_eq_true, decide_eq_true_eq]
  split_ifs at h with h1 h2 h3
  · rw [Nat.compare_eq_lt] at h
    omega
  · rw [Nat.compare_eq_lt] at h
    omega
  · rw [Nat.compare_eq_lt] at h
    omega
  · rw [Nat.compare_eq_lt] at h
    omega

theorem ptLe_refl (a : Order) : ptLeB a a = true := by
  simp [ptLeB]

theorem ptLe_trans {a b c : Order} (h1 : ptLeB a b = true)
    (h2 : ptLeB b c = true) : ptLeB a c = true := by
  simp only [ptLeB, Bool.or_eq_true, Bool.and_eq_true, decide_eq_true_eq] at h1 h2 ⊢
  omega

theorem chainB_tail {rel : Order → Order → Bool} {a : Order} {l : List Order}
    (h : chainB rel (a :: l) = true) : chainB rel l = true := by
  cases l with
  | nil => rfl
  | cons b r =>
    simp only [chainB, Bool.and_eq_true] at h
    exact h.2

theorem chainB_cons_of {rel : Order → Order → Bool} {x : Order} {l : List Order}
    (h1 : chainB rel l = true) (h2 : ∀ y ∈ l, rel x y = true) :
    chainB rel (x :: l) = true := by
  cases l with
  | nil => rfl
  | cons b r =>
    simp only [chainB, Bool.and_eq_true]
    exact ⟨h2 b (List.mem_cons_self b r), h1⟩

theorem chain_mem_head {a : Order} {l : List Order}
    (h : chainB cmpLtB (a :: l) = true) : ∀ y ∈ l, ptLeB a y = true := by
  induction l generalizing a with
  | nil => intro y hy; simp at hy
  | cons b r ih =>
    simp only [chainB, Bool.and_eq_true] at h
    intro y hy
    rcases List.mem_cons.mp hy with rfl | hy2
    · exact cmpLt_ptLe h.1
    · exact ptLe_trans (cmpLt_ptLe h.1) (ih h.2 y hy2)

theorem chain_mem_last {l : List Order} {x : Order}
    (h : chainB cmpLtB l = true) (hl : l.getLast? = some x) :
    ∀ y ∈ l, ptLeB y x = true := by
  induction l with
  | nil => intro y hy; simp at hy
  | cons a t ih =>
    cases t with
    | nil =>
      intro y hy
      simp at hl hy
      subst hl
      subst hy
      exact ptLe_refl _
    | cons b r =>
      rw [List.getLast?_cons_cons] at hl
      simp only [chainB, Bool.and_eq_true] at h
      intro y hy
      rcases List.mem_cons.mp hy with rfl | hy2
      · exact ptLe_trans (cmpLt_ptLe h.1)
          (ih h.2 hl b (List.mem_cons_self b r))
      · exact ih h.2 hl y hy2

theorem chainB_dropLast {rel : Order → Order → Bool} :
    ∀ (l : List Order), chainB rel l = true → chainB rel l.dropLast = true := by
  intro l
  induction l with
  | nil => intro h; exact h
  | cons a t ih =>
    cases t with
    | nil => intro h; rfl
    | cons b r =>
      intro h
      simp only [chainB, Bool.and_eq_true] at h
      rw [List.dropLast_cons₂]
      cases r with
      | nil => rfl
      | cons c r2 =>
        rw [List.dropLast_cons₂]
        have h2 := ih h.2
        rw [List.dropLast_cons₂] at h2
        simp only [chainB, Bool.and_eq_true]
        exact ⟨h.1, h2⟩

theorem popSide_buy {l rest : List Order} {o : Order}
    (h : popSide .Buy l = some (o, rest)) : l = o :: rest := by
  cases l with
  | nil => simp [popSide, OrderType.buy] at h
  | cons x xs =>
    simp [popSide, OrderType.buy] at h
    rw [h.1, h.2]

theorem popSide_sell {l rest : List Order} {o : Order}
    (h : popSide .Sell l = some (o, rest)) :
    l.getLast? = some o ∧ rest = l.dropLast := by
  simp [popSide, OrderType.buy] at h
  rcases hl : l.getLast? with _ | x
  · rw [hl] at h
    simp at h
  · rw [hl] at h
    simp at h
    exact ⟨by rw [h.1], h.2.symm⟩

theorem matchLoop_consumed_src {tt : OrderType} {trader token : Nat}
    {revenue : Option Nat} {limit : Option Nat} {time : Nat} :
    ∀ (fuel amount : Nat) (orders : List Order) (pools : Pools) (o : Order),
    o ∈ (matchLoop tt trader token revenue limit time fuel amount orders pools).consumed →
    ∃ o0, o0 ∈ orders ∧ o.price = o0.price ∧ o.timestamp = o0.timestamp := by
  intro fuel
  induction fuel with
  | zero =>
    intro amount orders pools o h
    simp [matchLoop] at h
  | succ n ih =>
    intro amount orders pools o h
    unfold matchLoop at h
    rcases hpop : popSide tt orders with _ | op
    · rw [hpop] at h
      simp at h
    · rcases op with ⟨order, rest⟩
      rw [hpop] at h
      dsimp only at h
      have hm := popSide_mem hpop
      repeat' split at h
      all_goals try dsimp only at h
      all_goals
        first
        | (rcases List.mem_cons.mp h with rfl | h2
           · exact ⟨order, hm.1, rfl, rfl⟩
           · first
             | simp at h2
             | (rcases ih _ _ _ _ h2 with ⟨o0, ho0, hp, ht⟩
                exact ⟨o0, hm.2 _ ho0, hp, ht⟩))
        | simp at h

theorem matchLoop_chain_buy {trader token : Nat} {revenue : Option Nat}
    {limit : Option Nat} {time : Nat} :
    ∀ (fuel amount : Nat) (orders : List Order) (pools : Pools),
    chainB cmpLtB orders = true →
    chainB ptLeB
      (matchLoop .Buy trader token revenue limit time fuel amount orders pools).consumed =
      true := by
  intro fuel
  induction fuel with
  | zero => intro amount orders pools hch; rfl
  | succ n ih =>
    intro amount orders pools hch
    unfold matchLoop
    rcases hpop : popSide .Buy orders with _ | op
    · rfl
    · rcases op with ⟨order, rest⟩
      have hOrd := popSide_buy hpop
      have hrest : chainB cmpLtB rest = true := chainB_tail (hOrd ▸ hch)
      have hdom : ∀ y ∈ rest, ptLeB order y = true := chain_mem_head (hOrd ▸ hch)
      dsimp only
      repeat' split
      all_goals try rfl
      all_goals dsimp only
      all_goals
        refine chainB_cons_of (ih _ _ _ hrest) ?_
      all_goals
        intro y hy
      all_goals
        rcases matchLoop_consumed_src _ _ _ _ y hy with ⟨o0, ho0, hp, ht⟩
      all_goals
        have hle := hdom o0 ho0
      all_goals
        simp only [ptLeB, Bool.or_eq_true, Bool.and_eq_true,
          decide_eq_true_eq] at hle ⊢
      all_goals omega

theorem matchLoop_chain_sell {trader token : Nat} {revenue : Option Nat}
    {limit : Option Nat} {time : Nat} :
    ∀ (fuel amount : Nat) (orders : List Order) (pools : Pools),
    chainB cmpLtB orders = true →
    chainB ptGeB
      (matchLoop .Sell trader token revenue limit time fuel amount orders pools).consumed =
      true := by
  intro fuel
  induction fuel with
  | zero => intro amount orders pools hch; rfl
  | succ n ih =>
    intro amount orders pools hch
    unfold matchLoop
    rcases hpop : popSide .Sell orders with _ | op
    · rfl
    · rcases op with ⟨order, rest⟩
      have hm := popSide_mem hpop
      have hps := popSide_sell hpop
      have hrest : chainB cmpLtB rest = true := by
        rw [hps.2]
        exact chainB_dropLast _ hch
      have hdom : ∀ y ∈ rest, ptLeB y order = true := by
        intro y hy
        exact chain_mem_last hch hps.1 y (hm.2 _ hy)
      dsimp only
      repeat' split
      all_goals try rfl
      all_goals dsimp only
      all_goals
        refine chainB_cons_of (ih _ _ _ hrest) ?_
      all_goals
        intro y hy
      all_goals
        rcases matchLoop_consumed_src _ _ _ _ y hy with ⟨o0, ho0, hp, ht⟩
      all_goals
        have hle := hdom o0 ho0
      all_goals
        simp only [ptGeB, ptLeB, Bool.or_eq_true, Bool.and_eq_true,
          decide_eq_true_eq] at hle ⊢
      all_goals omega

/-- C5 (amended): within one matching-loop run over a counter side sorted in
the book iteration order, the consumed sequence is monotone in
`(price, created_at)`: non-decreasing for a trader buy (earlier `created_at`
first at equal price) and non-increasing for a trader sell (`pop_last` takes
the maximum, so the LATER `created_at` is consumed first at equal price). -/
theorem c5_consumption_order_amended :
    ∀ (tt : OrderType) (trader token : Nat) (revenue : Option Nat)
      (limit : Option Nat) (time fuel amount : Nat) (orders : List Order)
      (pools : Pools),
    chainB cmpLtB orders = true →
    chainB (if tt.buy then ptLeB else ptGeB)
      (matchLoop tt trader token revenue limit time fuel amount orders pools).consumed =
      true := by
  intro tt trader token revenue limit time fuel amount orders pools hch
  rcases tt with _ | _
  · simpa [OrderType.buy] using
      matchLoop_chain_buy fuel amount orders pools hch
  · simpa [OrderType.buy] using
      matchLoop_chain_sell fuel amount orders pools hch

/-- Witness for C5 at the equal-price tie scenario: the two resting buys are
sorted, and the consumed sequence of the sale run is `ptGeB`-monotone. -/
theorem c5_consumption_order_witness :
    chainB cmpLtB [buyEarly, buyLate] = true ∧
    chainB ptGeB tieRun.consumed = true := by
  refine ⟨by decide, ?_⟩
  have h := c5_consumption_order_amended .Sell 3 100 (some 255) none 99 2 20
    [buyEarly, buyLate] tieState.pools (by decide)
  simpa [tieRun, OrderType.buy] using h

end Beacon
